import Mathlib

/-!
Verification development for the help-center mirroring tool
(scraper + state ledger + vector-store reconciler).

The definitions below are a shallow embedding of the Python sources:

* `src/state_manager.py`  — `StateManager` (ledger): `_load_state`,
  `get_article_state`, `update_article_state`, `needs_update`,
  `remove_article_state`, `get_all_article_ids`,
  `get_vector_store_id`, `set_vector_store_id`.
* `src/scraper.py`        — `Scraper.fetch_articles`, `Scraper.process_article`.
* `src/vector_store_manager.py` — `VectorStoreManager.get_or_create_vector_store`,
  `upload_file`, `remove_file_from_vector_store`, `remove_file_from_openai`.
* `src/main.py`           — the reconcile loop.  The repository's current
  revision of `main()` (the one exercised by `src/tests/test_main.py`) is not
  present under `src/` (only a commented-out earlier revision and a stub are),
  so the orchestration `run_main` below is modelled from the spec (§4.3),
  reusing the faithfully embedded component functions above.

External collaborators (HTTP, S3, OpenAI, the filesystem, `markdownify`,
`json`, clock) are represented by oracle parameters collected in `Env`, and
by abstract parse functions; everything the Python core itself computes
(MD5 fingerprints, path sanitisation, skip decisions, ledger mutations,
counters) is computed for real.

Machine integers are `Nat` with explicit `% 2^32` / `% 2^64` where the Python
code relies on fixed-width behaviour (inside `hashlib.md5`).
-/

namespace ChatbotClone

/-! ## Python-semantics helpers -/

/-- Truthiness of a Python string: `""` is falsy, everything else truthy. -/
def truthyS (s : String) : Bool := s != ""

/-- Truthiness of an optional Python string (`None` and `""` are falsy). -/
def truthyO : Option String → Bool
  | none => false
  | some s => truthyS s

/-- Python `a or b` on optional strings: returns `a` when truthy, else `b`. -/
def pyOr (a b : Option String) : Option String :=
  if truthyO a then a else b

/-- The whitespace set of Python `str.strip()`. -/
def isPySpace (c : Char) : Bool :=
  c = ' ' || c = '\t' || c = '\n' || c = '\x0d' || c = '\x0b' || c = '\x0c'

/-- Python `not content.strip()`: the string consists only of whitespace. -/
def isBlank (s : String) : Bool := s.data.all isPySpace

/-- Strip a given character from both ends of a char list (Python `str.strip("-")`). -/
def stripCharList (c : Char) (l : List Char) : List Char :=
  ((l.dropWhile (· = c)).reverse.dropWhile (· = c)).reverse

/-- Python `str.strip(ch)` on a string. -/
def stripChar (c : Char) (s : String) : String :=
  String.mk (stripCharList c s.data)

/-- `os.path.join` for the two-component joins the code performs. -/
def osJoin (dir file : String) : String :=
  if dir = "" then file
  else if dir.data.getLast? = some '/' then dir ++ file
  else dir ++ "/" ++ file

/-- An article identifier as Python hands it to the `StateManager` API:
either a raw integer (as fetched from the JSON API) or a string. -/
inductive PyKey where
  | intId (n : Int)
  | strId (s : String)
deriving DecidableEq

/-- Python `str(article_id)` — the normalisation every `StateManager`
operation applies before touching the `articles` dict. -/
def PyKey.str : PyKey → String
  | .intId n => toString n
  | .strId s => s

/-! ## MD5 (faithful to `hashlib.md5(content.encode("utf-8")).hexdigest()`)

All words are `Nat` reduced mod `2^32`; the message is the UTF-8 byte
sequence of the hashed string, as in CPython. -/

/-- UTF-8 encoding of one scalar value (what `str.encode("utf-8")` emits). -/
def utf8Bytes (c : Char) : List Nat :=
  let n := c.toNat
  if n < 128 then [n]
  else if n < 2048 then [192 + n / 64, 128 + n % 64]
  else if n < 65536 then [224 + n / 4096, 128 + n / 64 % 64, 128 + n % 64]
  else [240 + n / 262144, 128 + n / 4096 % 64, 128 + n / 64 % 64, 128 + n % 64]

/-- UTF-8 bytes of a whole string. -/
def strBytes (s : String) : List Nat := (s.data.map utf8Bytes).flatten

/-- Addition of two 32-bit words. -/
def w32add (a b : Nat) : Nat := (a + b) % 4294967296

/-- Bitwise complement of a 32-bit word. -/
def w32not (a : Nat) : Nat := Nat.xor a 4294967295

/-- Left-rotation of a 32-bit word by `s` places (for `a < 2^32`). -/
def rotl32 (a s : Nat) : Nat := (a * 2 ^ s + a / 2 ^ (32 - s)) % 4294967296

/-- MD5 round function F. -/
def md5F (x y z : Nat) : Nat := Nat.lor (Nat.land x y) (Nat.land (w32not x) z)

/-- MD5 round function G. -/
def md5G (x y z : Nat) : Nat := Nat.lor (Nat.land x z) (Nat.land y (w32not z))

/-- MD5 round function H. -/
def md5H (x y z : Nat) : Nat := Nat.xor (Nat.xor x y) z

/-- MD5 round function I. -/
def md5I (x y z : Nat) : Nat := Nat.xor y (Nat.lor x (w32not z))

/-- The 64 MD5 sine-derived constants. -/
def md5K : List Nat :=
  [0xd76aa478, 0xe8c7b756, 0x242070db, 0xc1bdceee,
   0xf57c0faf, 0x4787c62a, 0xa8304613, 0xfd469501,
   0x698098d8, 0x8b44f7af, 0xffff5bb1, 0x895cd7be,
   0x6b901122, 0xfd987193, 0xa679438e, 0x49b40821,
   0xf61e2562, 0xc040b340, 0x265e5a51, 0xe9b6c7aa,
   0xd62f105d, 0x02441453, 0xd8a1e681, 0xe7d3fbc8,
   0x21e1cde6, 0xc33707d6, 0xf4d50d87, 0x455a14ed,
   0xa9e3e905, 0xfcefa3f8, 0x676f02d9, 0x8d2a4c8a,
   0xfffa3942, 0x8771f681, 0x6d9d6122, 0xfde5380c,
   0xa4beea44, 0x4bdecfa9, 0xf6bb4b60, 0xbebfbc70,
   0x289b7ec6, 0xeaa127fa, 0xd4ef3085, 0x04881d05,
   0xd9d4d039, 0xe6db99e5, 0x1fa27cf8, 0xc4ac5665,
   0xf4292244, 0x432aff97, 0xab9423a7, 0xfc93a039,
   0x655b59c3, 0x8f0ccc92, 0xffeff47d, 0x85845dd1,
   0x6fa87e4f, 0xfe2ce6e0, 0xa3014314, 0x4e0811a1,
   0xf7537e82, 0xbd3af235, 0x2ad7d2bb, 0xeb86d391]

/-- The 64 MD5 per-step rotation amounts. -/
def md5S : List Nat :=
  [7, 12, 17, 22, 7, 12, 17, 22, 7, 12, 17, 22, 7, 12, 17, 22,
   5, 9, 14, 20, 5, 9, 14, 20, 5, 9, 14, 20, 5, 9, 14, 20,
   4, 11, 16, 23, 4, 11, 16, 23, 4, 11, 16, 23, 4, 11, 16, 23,
   6, 10, 15, 21, 6, 10, 15, 21, 6, 10, 15, 21, 6, 10, 15, 21]

/-- Little-endian 32-bit word from the first four bytes of a list. -/
def leWord : List Nat → Nat
  | b0 :: b1 :: b2 :: b3 :: _ => b0 + 256 * b1 + 65536 * b2 + 16777216 * b3
  | [b0, b1, b2] => b0 + 256 * b1 + 65536 * b2
  | [b0, b1] => b0 + 256 * b1
  | [b0] => b0
  | [] => 0

/-- `len` bytes of `n`, little-endian. -/
def leBytes (len n : Nat) : List Nat :=
  (List.range len).map (fun i => n / 256 ^ i % 256)

/-- One step of the MD5 compression function. -/
def md5Step (m : List Nat) (st : Nat × Nat × Nat × Nat) (i : Nat) :
    Nat × Nat × Nat × Nat :=
  let (a, b, c, d) := st
  let f :=
    if i < 16 then md5F b c d
    else if i < 32 then md5G b c d
    else if i < 48 then md5H b c d
    else md5I b c d
  let g :=
    if i < 16 then i
    else if i < 32 then (5 * i + 1) % 16
    else if i < 48 then (3 * i + 5) % 16
    else 7 * i % 16
  let tmp := w32add (w32add (w32add a f) (md5K.getD i 0)) (m.getD g 0)
  (d, w32add b (rotl32 tmp (md5S.getD i 0)), b, c)

/-- MD5 compression of one 64-byte block. -/
def md5Block (st : Nat × Nat × Nat × Nat) (block : List Nat) :
    Nat × Nat × Nat × Nat :=
  let m := (List.range 16).map (fun j => leWord (block.drop (4 * j)))
  let r := (List.range 64).foldl (md5Step m) st
  (w32add st.1 r.1, w32add st.2.1 r.2.1, w32add st.2.2.1 r.2.2.1,
   w32add st.2.2.2 r.2.2.2)

/-- MD5 padding: `0x80`, zeros to 56 mod 64, then the 64-bit LE bit length. -/
def md5Pad (msg : List Nat) : List Nat :=
  let z := (120 - (msg.length + 1) % 64) % 64
  msg ++ [128] ++ List.replicate z 0 ++
    leBytes 8 (msg.length * 8 % 18446744073709551616)

/-- Split a list into 64-element chunks (fuel-driven so it reduces in the
kernel; the fuel `l.length` always suffices). -/
def chunks64Aux : Nat → List Nat → List (List Nat)
  | 0, _ => []
  | _, [] => []
  | fuel + 1, l => l.take 64 :: chunks64Aux fuel (l.drop 64)

/-- Split a byte list into 64-byte blocks. -/
def chunks64 (l : List Nat) : List (List Nat) := chunks64Aux l.length l

/-- The four 32-bit state words after digesting a byte message. -/
def md5Words (msg : List Nat) : Nat × Nat × Nat × Nat :=
  (chunks64 (md5Pad msg)).foldl md5Block
    (1732584193, 4023233417, 2562383102, 271733878)

/-- The 16 digest bytes of a byte message. -/
def md5Bytes (msg : List Nat) : List Nat :=
  let r := md5Words msg
  leBytes 4 r.1 ++ leBytes 4 r.2.1 ++ leBytes 4 r.2.2.1 ++ leBytes 4 r.2.2.2

/-- Lower-case hex digit. -/
def hexChar (n : Nat) : Char :=
  if n = 0 then '0' else if n = 1 then '1' else if n = 2 then '2'
  else if n = 3 then '3' else if n = 4 then '4' else if n = 5 then '5'
  else if n = 6 then '6' else if n = 7 then '7' else if n = 8 then '8'
  else if n = 9 then '9' else if n = 10 then 'a' else if n = 11 then 'b'
  else if n = 12 then 'c' else if n = 13 then 'd' else if n = 14 then 'e'
  else 'f'

/-- Two hex digits of a byte. -/
def byteHex (b : Nat) : List Char := [hexChar (b / 16), hexChar (b % 16)]

/-- `hashlib.md5(s.encode("utf-8")).hexdigest()`. -/
def md5hex (s : String) : String :=
  String.mk ((md5Bytes (strBytes s)).map byteHex).flatten

/-- The digest packed into a single natural number (base `2^32`, word order
a, b, c, d); used to reason about the digest space being finite. -/
def md5Nat (s : String) : Nat :=
  let r := md5Words (strBytes s)
  r.1 + 4294967296 * (r.2.1 + 4294967296 * (r.2.2.1 + 4294967296 * r.2.2.2))

/-! ## The ledger (`src/state_manager.py`)

The persisted JSON document is
`{"articles": {"<id>": {"hash", "openai_file_id", "last_modified",
"updated_at"}, ...}, "vector_store_id": ...}`.  `articles` is a Python dict
(string keys, insertion-ordered), modelled as an ordered association list. -/

/-- One value of the `articles` mapping, as written by
`StateManager.update_article_state` (src/state_manager.py lines 90-95). -/
structure ArticleEntry where
  hash : String
  openai_file_id : Option String
  last_modified : Option String
  updated_at : String
deriving DecidableEq

/-- The in-memory `self.state` dict of `StateManager`. -/
structure StateJson where
  articles : List (String × ArticleEntry)
  vector_store_id : Option String
deriving DecidableEq

/-- The fresh state `{"articles": {}, "vector_store_id": None}`. -/
def freshState : StateJson := ⟨[], none⟩

/-- Dict lookup by string key (first match; dict keys are unique). -/
def lookupKey (l : List (String × ArticleEntry)) (k : String) :
    Option ArticleEntry :=
  match l with
  | [] => none
  | (k2, v) :: rest => if k2 = k then some v else lookupKey rest k

/-- Dict assignment `d[k] = v`: overwrite in place, else append (Python
dicts keep the position of an existing key and append new keys). -/
def setKey (l : List (String × ArticleEntry)) (k : String) (v : ArticleEntry) :
    List (String × ArticleEntry) :=
  match l with
  | [] => [(k, v)]
  | (k2, v2) :: rest =>
      if k2 = k then (k2, v) :: rest else (k2, v2) :: setKey rest k v

/-- Dict deletion `del d[k]` guarded by `if k in d` (removes the key,
no-op when absent). -/
def delKey (l : List (String × ArticleEntry)) (k : String) :
    List (String × ArticleEntry) :=
  l.filter (fun kv => kv.1 ≠ k)

/-- What the S3 `get_object` + `read` + `decode` step produced, from the
point of view of `_load_state`'s `try` block. -/
inductive ReadResult where
  /-- `ClientError` with error code `NoSuchKey` (no state object yet). -/
  | noSuchKey
  /-- Any other `ClientError` (src lines 46-51: logged, fresh state). -/
  | clientError
  /-- Any other exception while fetching or decoding (src lines 52-54). -/
  | otherError
  /-- The object was fetched and decoded to this string. -/
  | content (s : String)
deriving DecidableEq

/-- `StateManager._load_state` (src/state_manager.py lines 31-54).
`parse` stands for `json.loads`; `parse s = none` means `json.loads`
raised (malformed JSON), which the `except Exception` arm absorbs.
Every path returns normally — the embedding is a total function because
every exception the Python code can see here is caught. -/
def load_state (parse : String → Option StateJson) (r : ReadResult) :
    StateJson :=
  match r with
  | .noSuchKey => freshState
  | .clientError => freshState
  | .otherError => freshState
  | .content s =>
      if isBlank s then freshState
      else
        match parse s with
        | some st => st
        | none => freshState

/-- `StateManager.get_article_state` (src lines 70-79):
`self.state["articles"].get(str(article_id), {})`.  The empty-dict default
is rendered as `none`. -/
def get_article_state (st : StateJson) (article_id : PyKey) :
    Option ArticleEntry :=
  lookupKey st.articles article_id.str

/-- `StateManager.update_article_state` (src lines 81-95).  `now` stands for
`datetime.datetime.now().isoformat()`. -/
def update_article_state (st : StateJson) (article_id : PyKey)
    (file_hash : String) (openai_file_id : Option String)
    (last_modified : Option String) (now : String) : StateJson :=
  { st with
    articles := setKey st.articles article_id.str
      ⟨file_hash, openai_file_id, last_modified, now⟩ }

/-- `StateManager.remove_article_state` (src lines 157-164). -/
def remove_article_state (st : StateJson) (article_id : PyKey) : StateJson :=
  { st with articles := delKey st.articles article_id.str }

/-- `StateManager.get_all_article_ids` (src lines 144-150). -/
def get_all_article_ids (st : StateJson) : List String :=
  st.articles.map Prod.fst

/-- `StateManager.get_vector_store_id` (src lines 129-135). -/
def get_vector_store_id (st : StateJson) : Option String :=
  st.vector_store_id

/-- `StateManager.set_vector_store_id` (src lines 137-143). -/
def set_vector_store_id (st : StateJson) (vs_id : Option String) : StateJson :=
  { st with vector_store_id := vs_id }

/-- The body of `StateManager.needs_update` once the entry is in hand
(src/state_manager.py lines 108-127).  The first `if` mirrors the
`stored_last_modified and last_modified` truthiness guard plus the
equality fast path; the second mirrors the bare hash comparison. -/
def needs_update_entry (e : ArticleEntry) (content_hash : String)
    (last_modified : Option String) : Bool :=
  if truthyO e.last_modified && truthyO last_modified
      && e.last_modified == last_modified && e.hash == content_hash then
    false
  else if e.hash == content_hash then false
  else true

/-- `StateManager.needs_update` (src lines 97-127).  A missing entry
(`current_state` falsy) is always an update. -/
def needs_update (st : StateJson) (article_id : PyKey)
    (content_hash : String) (last_modified : Option String) : Bool :=
  match get_article_state st article_id with
  | none => true
  | some e => needs_update_entry e content_hash last_modified

/-! ## The scraper (`src/scraper.py`) -/

/-- An article record as the Zendesk JSON gives it to the scraper.
`none` stands for an absent (or JSON-null) field; `api_last_modified` is
the `_api_last_modified` key that `fetch_articles` injects. -/
structure Article where
  id : Option Int
  title : Option String
  body : Option String
  html_url : Option String
  updated_at : Option String
  api_last_modified : Option String
deriving DecidableEq

/-- Python `str(article.get("id"))` as it ends up inside f-strings and dict
keys: an absent id renders as `"None"`. -/
def articleKey (a : Article) : String :=
  match a.id with
  | some n => toString n
  | none => "None"

/-- The same identifier as the raw value `main` passes to the
`StateManager` API (an `int` when present). -/
def articlePyId (a : Article) : PyKey :=
  match a.id with
  | some n => .intId n
  | none => .strId "None"

/-- What the HTTP layer produced, from the point of view of
`Scraper.fetch_articles`'s `try` block. -/
inductive FetchOutcome where
  /-- Any exception: network error, non-2xx status, JSON decode error. -/
  | exn
  /-- A 2xx response: the parsed `Last-Modified` header value (already
  `None` when the header is absent or `parsedate_to_datetime` failed,
  src/scraper.py lines 57-63) and the decoded `articles` array. -/
  | success (apiLastModified : Option String) (articles : List Article)

/-- The `_api_last_modified` annotation loop of `fetch_articles`
(src/scraper.py lines 70-77): header value first, else the article's
`updated_at`, else `None`. -/
def annotateArticle (apiLastModified : Option String) (a : Article) :
    Article :=
  if truthyO apiLastModified then { a with api_last_modified := apiLastModified }
  else if truthyO a.updated_at then { a with api_last_modified := a.updated_at }
  else { a with api_last_modified := none }

/-- `Scraper.fetch_articles` (src/scraper.py lines 34-84): on success the
annotated article list, on any exception the caught-and-logged empty
list. -/
def fetch_articles (o : FetchOutcome) : List Article :=
  match o with
  | .exn => []
  | .success lm arts => arts.map (annotateArticle lm)

/-- The `safe_title` computation of `process_article`
(src/scraper.py line 112): every non-alphanumeric character becomes
`'-'`, then leading/trailing `'-'` are stripped. -/
def sanitizeTitle (t : String) : String :=
  stripChar '-' (String.mk (t.data.map (fun c => if c.isAlphanum then c else '-')))

/-- The non-`None` result of `Scraper.process_article`: the 4-tuple
`(filepath, file_content, content_hash, last_modified)` as a record. -/
structure ProcessedDoc where
  filepath : String
  file_content : String
  content_hash : String
  last_modified : Option String
deriving DecidableEq

/-- `Scraper.process_article` (src/scraper.py lines 86-122).  `md` stands
for the external `markdownify` conversion; `outputDir` is
`self.output_dir`.  `none` is the `(None, None, None, None)` return for an
empty or absent body. -/
def process_article (md : String → String) (outputDir : String)
    (a : Article) : Option ProcessedDoc :=
  let title := a.title.getD "Untitled"
  let body := a.body.getD ""
  if body = "" then none
  else
    let html_url := a.html_url.getD "None"
    let file_content :=
      "# " ++ title ++ "\n\nArticle URL: " ++ html_url ++ "\n\n" ++ md body
    let filename := articleKey a ++ "-" ++ sanitizeTitle title ++ ".md"
    some
      { filepath := osJoin outputDir filename
        file_content := file_content
        content_hash := md5hex file_content
        last_modified := pyOr a.api_last_modified a.updated_at }

/-! ## The vector-store client (`src/vector_store_manager.py`)

Remote calls are recorded as a trace of `VSEvent`s; their outcomes come
from oracle parameters. -/

/-- One attempted OpenAI API call. -/
inductive VSEvent where
  /-- `vector_stores.retrieve(id)`. -/
  | retrieve (id : String)
  /-- `vector_stores.create(name=…, expires_after={anchor, days})`. -/
  | create (anchor : String) (days : Nat)
  /-- `files.create(file=…, purpose="assistants")` for this local path. -/
  | upload (path : String)
  /-- `vector_stores.files.create(vector_store_id, file_id)`. -/
  | link (vsId fileId : String)
  /-- `vector_stores.files.delete(vector_store_id, file_id)`. -/
  | unlink (vsId fileId : String)
  /-- `files.delete(file_id)`. -/
  | deleteBlob (fileId : String)
deriving DecidableEq

/-- `VectorStoreManager.get_or_create_vector_store`
(src/vector_store_manager.py lines 19-56).  `client` is whether an API key
was configured; `retrieveOk id` is whether `vector_stores.retrieve(id)`
succeeds; `createResult` is the id of the store `vector_stores.create`
returns, or `none` when the call raises.  Returns the store id handed to
the caller, the possibly updated state, and the trace of calls. -/
def get_or_create_vector_store (client : Bool) (retrieveOk : String → Bool)
    (createResult : Option String) (st : StateJson) :
    Option String × StateJson × List VSEvent :=
  if client = false then (none, st, [])
  else
    let vs := get_vector_store_id st
    let createCall : Option String × StateJson × List VSEvent → Option String × StateJson × List VSEvent :=
      fun pre =>
        match createResult with
        | some newId =>
            (some newId, set_vector_store_id pre.2.1 (some newId),
             pre.2.2 ++ [.create "last_active_at" 20])
        | none => (none, pre.2.1, pre.2.2 ++ [.create "last_active_at" 20])
    if truthyO vs then
      if retrieveOk (vs.getD "") then (vs, st, [.retrieve (vs.getD "")])
      else createCall (none, st, [.retrieve (vs.getD "")])
    else createCall (none, st, [])

/-- `VectorStoreManager.upload_file` (src/vector_store_manager.py lines
58-79): without a client the mock id; with one, the oracle's file id, or
`none` when the call raised (caught and logged). -/
def upload_file (client : Bool) (uploadResult : String → Option String)
    (filepath : String) : Option String :=
  if client = false then some "mock_file_id"
  else uploadResult filepath

/-- `VectorStoreManager.remove_file_from_vector_store`
(src/vector_store_manager.py lines 187-203): guarded no-op without client
/ store id / file id; otherwise the delete call is attempted exactly once
and any exception is caught inside the method (both match arms return the
same attempt, mirroring the `try`/`except` whose handler only logs). -/
def remove_file_from_vector_store (client : Bool) (vsId fileId : Option String)
    (raises : Bool) : List VSEvent :=
  if client = false || truthyO vsId = false || truthyO fileId = false then []
  else
    match raises with
    | true => [.unlink (vsId.getD "") (fileId.getD "")]
    | false => [.unlink (vsId.getD "") (fileId.getD "")]

/-- `VectorStoreManager.remove_file_from_openai`
(src/vector_store_manager.py lines 172-186): same caught-exception shape
for `files.delete`. -/
def remove_file_from_openai (client : Bool) (fileId : Option String)
    (raises : Bool) : List VSEvent :=
  if client = false || truthyO fileId = false then []
  else
    match raises with
    | true => [.deleteBlob (fileId.getD "")]
    | false => [.deleteBlob (fileId.getD "")]

/-! ## The reconciler

Modelled from the spec: the current revision of `main()` (src/main.py) is
absent from `src/` — the file keeps only a commented-out earlier revision
and a stub — so the orchestration below follows spec §4.3 step by step,
calling the component functions embedded above from the source. -/

/-- The collaborator oracles one run sees (configuration, network and
filesystem outcomes, `markdownify`, the clock). -/
structure Env where
  /-- An OpenAI API key is configured. -/
  client : Bool
  /-- `markdownify(body, heading_style="ATX")`. -/
  md : String → String
  /-- The output directory (`OUTPUT_DIR`). -/
  outputDir : String
  /-- Whether `vector_stores.retrieve(id)` succeeds. -/
  retrieveOk : String → Bool
  /-- The id `vector_stores.create` returns (`none` = the call raises). -/
  createResult : Option String
  /-- The file id `files.create` returns for a path (`none` = raises). -/
  uploadResult : String → Option String
  /-- Whether linking a file id into a store succeeds. -/
  linkOk : String → String → Bool
  /-- Whether writing the local file at a path succeeds. -/
  writeOk : String → Bool
  /-- Whether the unlink call for a file id raises. -/
  unlinkRaises : String → Bool
  /-- Whether the blob-delete call for a file id raises. -/
  deleteRaises : String → Bool
  /-- Whether the final ledger save succeeds. -/
  saveOk : Bool
  /-- `datetime.datetime.now().isoformat()` for this run. -/
  now : String

/-- The run report counters (spec §4.4). -/
structure RunStats where
  added : Nat
  updated : Nat
  skipped : Nat
  deleted : Nat
  failed : Bool
deriving DecidableEq

/-- Zero counters, no failure. -/
def initStats : RunStats := ⟨0, 0, 0, 0, false⟩

/-- Spec §4.3 step 3(c), the skip predicate: (stored upstream-marker
present and equal to the fresh one and stored fingerprint equal to the
fresh one) OR (stored fingerprint equal and the target file exists). -/
def skip_decision (entry : Option ArticleEntry) (content_hash : String)
    (last_modified : Option String) (fileExists : Bool) : Bool :=
  match entry with
  | none => false
  | some e =>
      (truthyO e.last_modified && e.last_modified == last_modified
        && e.hash == content_hash)
      || (e.hash == content_hash && fileExists)

/-- The mutable state threaded through the upsert pass: ledger, set of
existing local files, counters, trace. -/
structure UpsertAcc where
  st : StateJson
  fs : List String
  stats : RunStats
  events : List VSEvent
deriving DecidableEq

/-- One iteration of the upsert pass (spec §4.3 step 3) for one article. -/
def upsert_step (env : Env) (vsId : Option String) (acc : UpsertAcc)
    (a : Article) : UpsertAcc :=
  match process_article env.md env.outputDir a with
  | none => acc
  | some d =>
      let entry := get_article_state acc.st (articlePyId a)
      if skip_decision entry d.content_hash d.last_modified
          (acc.fs.contains d.filepath) then
        { acc with stats := { acc.stats with skipped := acc.stats.skipped + 1 } }
      else if env.writeOk d.filepath = false then
        { acc with stats := { acc.stats with failed := true } }
      else
        let fs2 := if acc.fs.contains d.filepath then acc.fs
                   else acc.fs ++ [d.filepath]
        let isUpdate := entry.isSome
        let bump := fun (s : RunStats) =>
          if isUpdate then { s with updated := s.updated + 1 }
          else { s with added := s.added + 1 }
        if truthyO vsId then
          match upload_file env.client env.uploadResult d.filepath with
          | none =>
              { acc with
                fs := fs2
                stats := { acc.stats with failed := true }
                events := acc.events ++ [.upload d.filepath] }
          | some fid =>
              let linkFailed := env.linkOk (vsId.getD "") fid = false
              { st := update_article_state acc.st (articlePyId a)
                        d.content_hash (some fid) d.last_modified env.now
                fs := fs2
                stats := bump { acc.stats with
                                failed := acc.stats.failed || linkFailed }
                events := acc.events ++ [.upload d.filepath, .link (vsId.getD "") fid] }
        else
          { st := update_article_state acc.st (articlePyId a)
                    d.content_hash none d.last_modified env.now
            fs := fs2
            stats := bump acc.stats
            events := acc.events }

/-- The upsert pass over the fetched article list, in fetch order. -/
def upsert_pass (env : Env) (vsId : Option String) (acc : UpsertAcc)
    (articles : List Article) : UpsertAcc :=
  articles.foldl (upsert_step env vsId) acc

/-- The state threaded through the deletion pass: ledger, deleted counter,
trace. -/
structure DeleteAcc where
  st : StateJson
  deleted : Nat
  events : List VSEvent
deriving DecidableEq

/-- The remote calls one stale identifier triggers (spec §4.3 step 2):
unlink from the store and delete from storage, when a blob id is recorded
and a store exists.  Exceptions are caught inside the embedded client
methods. -/
def del_events (env : Env) (vsId : Option String) (st : StateJson)
    (staleId : String) : List VSEvent :=
  let entry := get_article_state st (.strId staleId)
  let blob := entry.bind (·.openai_file_id)
  if truthyO blob && truthyO vsId then
    remove_file_from_vector_store env.client vsId blob
      (env.unlinkRaises (blob.getD ""))
    ++ remove_file_from_openai env.client blob
      (env.deleteRaises (blob.getD ""))
  else []

/-- One iteration of the deletion pass (spec §4.3 step 2) for one stale
identifier: the remote calls, then unconditional ledger removal and
counter increment. -/
def del_step (env : Env) (vsId : Option String) (acc : DeleteAcc)
    (staleId : String) : DeleteAcc :=
  { st := remove_article_state acc.st (.strId staleId)
    deleted := acc.deleted + 1
    events := acc.events ++ del_events env vsId acc.st staleId }

/-- The deletion pass (spec §4.3 step 2): every tracked identifier absent
from the observed identifier set is processed once. -/
def deletion_pass (env : Env) (vsId : Option String) (observed : List String)
    (st : StateJson) : DeleteAcc :=
  let stale := (get_all_article_ids st).filter
    (fun j => observed.contains j = false)
  stale.foldl (del_step env vsId) ⟨st, 0, []⟩

/-- The result of one reconciler run. -/
structure RunResult where
  state : StateJson
  fs : List String
  stats : RunStats
  events : List VSEvent
deriving DecidableEq

/-- One reconciler run over an already-fetched article list (spec §4.3):
store bootstrap, deletion pass, upsert pass, save.  `fs0` is the set of
local files existing when the run starts. -/
def run_main (env : Env) (st0 : StateJson) (fs0 : List String)
    (articles : List Article) : RunResult :=
  let boot := get_or_create_vector_store env.client env.retrieveOk
    env.createResult st0
  let vsId := boot.1
  let observed := articles.map articleKey
  let del := deletion_pass env vsId observed boot.2.1
  let up := upsert_pass env vsId ⟨del.st, fs0, initStats, []⟩ articles
  { state := up.st
    fs := up.fs
    stats := { up.stats with
               deleted := del.deleted
               failed := up.stats.failed || env.saveOk = false }
    events := boot.2.2 ++ del.events ++ up.events }

/-! ## Association-list lemmas -/

theorem lookupKey_setKey_self (l : List (String × ArticleEntry)) (k : String)
    (v : ArticleEntry) : lookupKey (setKey l k v) k = some v := by
  induction l with
  | nil => simp [setKey, lookupKey]
  | cons hd tl ih =>
      by_cases h : hd.1 = k
      · simp [setKey, lookupKey, h]
      · simpa [setKey, lookupKey, h] using ih

theorem lookupKey_setKey_other (l : List (String × ArticleEntry))
    (k k2 : String) (v : ArticleEntry) (h : k2 ≠ k) :
    lookupKey (setKey l k v) k2 = lookupKey l k2 := by
  have h1 : ¬(k = k2) := fun e => h e.symm
  induction l with
  | nil => simp [setKey, lookupKey, h1]
  | cons hd tl ih =>
      by_cases hh : hd.1 = k
      · have h2 : ¬(hd.1 = k2) := by rw [hh]; exact h1
        simp [setKey, lookupKey, hh, h2, h1]
      · by_cases h2 : hd.1 = k2
        · simp [setKey, lookupKey, hh, h2, h, h1]
        · simp [setKey, lookupKey, hh, h2, ih]

theorem lookupKey_delKey_self (l : List (String × ArticleEntry)) (k : String) :
    lookupKey (delKey l k) k = none := by
  induction l with
  | nil => simp [delKey, lookupKey]
  | cons hd tl ih =>
      by_cases h : hd.1 = k
      · simp only [delKey, List.filter_cons] at ih ⊢
        simpa [h] using ih
      · simp only [delKey, List.filter_cons] at ih ⊢
        simpa [h, lookupKey] using ih

theorem lookupKey_delKey_other (l : List (String × ArticleEntry))
    (k k2 : String) (h : k2 ≠ k) :
    lookupKey (delKey l k) k2 = lookupKey l k2 := by
  induction l with
  | nil => simp [delKey, lookupKey]
  | cons hd tl ih =>
      have h3 : ¬(k = k2) := fun e => h e.symm
      by_cases hh : hd.1 = k
      · simp only [delKey, List.filter_cons] at ih ⊢
        simpa [hh, h3, lookupKey] using ih
      · by_cases h2 : hd.1 = k2
        · simp only [delKey, List.filter_cons] at ih ⊢
          simp [hh, h2, h, lookupKey]
        · simp only [delKey, List.filter_cons] at ih ⊢
          simpa [hh, h2, lookupKey] using ih

theorem setKey_keys (l : List (String × ArticleEntry)) (k : String)
    (v : ArticleEntry) (j : String)
    (h : j ∈ (setKey l k v).map Prod.fst) :
    j ∈ l.map Prod.fst ∨ j = k := by
  induction l with
  | nil =>
      simp only [setKey, List.map_cons, List.map_nil, List.mem_cons,
        List.not_mem_nil, or_false] at h
      exact Or.inr h
  | cons hd tl ih =>
      simp only [setKey] at h
      by_cases hh : hd.1 = k
      · rw [if_pos hh] at h
        simp only [List.map_cons, List.mem_cons] at h
        rcases h with h | h
        · exact Or.inl (by simp only [List.map_cons, List.mem_cons]; exact Or.inl h)
        · exact Or.inl (by simp only [List.map_cons, List.mem_cons]; exact Or.inr h)
      · rw [if_neg hh] at h
        simp only [List.map_cons, List.mem_cons] at h
        rcases h with h | h
        · exact Or.inl (by simp only [List.map_cons, List.mem_cons]; exact Or.inl h)
        · rcases ih h with h2 | h2
          · exact Or.inl (by simp only [List.map_cons, List.mem_cons]; exact Or.inr h2)
          · exact Or.inr h2

/-- The raw id that `main` passes to the `StateManager` normalises to the
same string that names the local file. -/
theorem articlePyId_str (a : Article) : (articlePyId a).str = articleKey a := by
  cases h : a.id <;> simp [articlePyId, articleKey, PyKey.str, h]

/-! ## Structural lemmas about the upsert pass -/

theorem upsert_step_vsid (env : Env) (vs : Option String) (acc : UpsertAcc)
    (a : Article) :
    (upsert_step env vs acc a).st.vector_store_id = acc.st.vector_store_id := by
  unfold upsert_step
  cases hp : process_article env.md env.outputDir a
  · rfl
  · simp only []
    split
    · rfl
    · split
      · rfl
      · split
        · cases hu : upload_file env.client env.uploadResult _
          · rfl
          · simp [update_article_state]
        · simp [update_article_state]

theorem upsert_step_key_other (env : Env) (vs : Option String)
    (acc : UpsertAcc) (a : Article) (k : String) (hk : k ≠ articleKey a) :
    lookupKey (upsert_step env vs acc a).st.articles k
      = lookupKey acc.st.articles k := by
  unfold upsert_step
  cases hp : process_article env.md env.outputDir a
  · rfl
  · simp only []
    split
    · rfl
    · split
      · rfl
      · split
        · cases hu : upload_file env.client env.uploadResult _
          · rfl
          · simp only [update_article_state, articlePyId_str]
            exact lookupKey_setKey_other _ _ _ _ hk
        · simp only [update_article_state, articlePyId_str]
          exact lookupKey_setKey_other _ _ _ _ hk

/-- A key is among the dict's keys exactly when lookup finds it. -/
theorem mem_keys_iff_lookup (l : List (String × ArticleEntry)) (k : String) :
    k ∈ l.map Prod.fst ↔ lookupKey l k ≠ none := by
  induction l with
  | nil => simp [lookupKey]
  | cons hd tl ih =>
      by_cases h : hd.1 = k
      · simp [lookupKey, h]
      · have h2 : ¬(k = hd.1) := fun e => h e.symm
        simp [lookupKey, h, h2, ih]

theorem upsert_step_fs_mono (env : Env) (vs : Option String) (acc : UpsertAcc)
    (a : Article) (p : String) (hp : p ∈ acc.fs) :
    p ∈ (upsert_step env vs acc a).fs := by
  unfold upsert_step
  cases hq : process_article env.md env.outputDir a with
  | none => exact hp
  | some d =>
      simp only []
      split
      · exact hp
      · split
        · exact hp
        · split
          · cases hu : upload_file env.client env.uploadResult d.filepath with
            | none =>
                dsimp only
                split
                · exact hp
                · exact List.mem_append_left _ hp
            | some fid =>
                dsimp only
                split
                · exact hp
                · exact List.mem_append_left _ hp
          · dsimp only
            split
            · exact hp
            · exact List.mem_append_left _ hp

theorem upsert_step_failed_mono (env : Env) (vs : Option String)
    (acc : UpsertAcc) (a : Article) (hf : acc.stats.failed = true) :
    (upsert_step env vs acc a).stats.failed = true := by
  unfold upsert_step
  cases hq : process_article env.md env.outputDir a with
  | none => exact hf
  | some d =>
      simp only []
      split
      · exact hf
      · split
        · rfl
        · split
          · cases hu : upload_file env.client env.uploadResult d.filepath with
            | none => rfl
            | some fid =>
                dsimp only
                split <;> simp [hf]
          · dsimp only
            split <;> simp [hf]

theorem upsert_step_keys (env : Env) (vs : Option String) (acc : UpsertAcc)
    (a : Article) (j : String)
    (h : j ∈ (upsert_step env vs acc a).st.articles.map Prod.fst) :
    j ∈ acc.st.articles.map Prod.fst ∨ j = articleKey a := by
  by_cases hk : j = articleKey a
  · exact Or.inr hk
  · left
    have heq := upsert_step_key_other env vs acc a j hk
    rw [mem_keys_iff_lookup] at h ⊢
    rw [heq] at h
    exact h

theorem upsert_pass_key_other (env : Env) (vs : Option String)
    (acc : UpsertAcc) (l : List Article) (k : String)
    (hk : k ∉ l.map articleKey) :
    lookupKey (upsert_pass env vs acc l).st.articles k
      = lookupKey acc.st.articles k := by
  induction l generalizing acc with
  | nil => rfl
  | cons hd tl ih =>
      have h1 : k ≠ articleKey hd := by
        intro e; exact hk (by simp [e])
      have h2 : k ∉ tl.map articleKey := by
        intro e; exact hk (by simp; right; simpa using e)
      rw [upsert_pass, List.foldl_cons, ← upsert_pass]
      rw [ih _ h2]
      exact upsert_step_key_other env vs acc hd k h1

theorem upsert_pass_fs_mono (env : Env) (vs : Option String) (acc : UpsertAcc)
    (l : List Article) (p : String) (hp : p ∈ acc.fs) :
    p ∈ (upsert_pass env vs acc l).fs := by
  induction l generalizing acc with
  | nil => exact hp
  | cons hd tl ih =>
      rw [upsert_pass, List.foldl_cons, ← upsert_pass]
      exact ih _ (upsert_step_fs_mono env vs acc hd p hp)

theorem upsert_pass_failed_mono (env : Env) (vs : Option String)
    (acc : UpsertAcc) (l : List Article) (hf : acc.stats.failed = true) :
    (upsert_pass env vs acc l).stats.failed = true := by
  induction l generalizing acc with
  | nil => exact hf
  | cons hd tl ih =>
      rw [upsert_pass, List.foldl_cons, ← upsert_pass]
      exact ih _ (upsert_step_failed_mono env vs acc hd hf)

theorem upsert_pass_vsid (env : Env) (vs : Option String) (acc : UpsertAcc)
    (l : List Article) :
    (upsert_pass env vs acc l).st.vector_store_id = acc.st.vector_store_id := by
  induction l generalizing acc with
  | nil => rfl
  | cons hd tl ih =>
      rw [upsert_pass, List.foldl_cons, ← upsert_pass]
      rw [ih _]
      exact upsert_step_vsid env vs acc hd

theorem upsert_pass_keys (env : Env) (vs : Option String) (acc : UpsertAcc)
    (l : List Article) (j : String)
    (h : j ∈ (upsert_pass env vs acc l).st.articles.map Prod.fst) :
    j ∈ acc.st.articles.map Prod.fst ∨ j ∈ l.map articleKey := by
  induction l generalizing acc with
  | nil => exact Or.inl h
  | cons hd tl ih =>
      rw [upsert_pass, List.foldl_cons, ← upsert_pass] at h
      rcases ih _ h with h2 | h2
      · rcases upsert_step_keys env vs acc hd j h2 with h3 | h3
        · exact Or.inl h3
        · exact Or.inr (by simp [h3])
      · exact Or.inr (by simp; right; simpa using h2)

/-! ## Structural lemmas about the deletion pass -/

theorem del_step_articles (env : Env) (vs : Option String) (acc : DeleteAcc)
    (j : String) :
    (del_step env vs acc j).st.articles = delKey acc.st.articles j := rfl

theorem del_step_vsid (env : Env) (vs : Option String) (acc : DeleteAcc)
    (j : String) :
    (del_step env vs acc j).st.vector_store_id = acc.st.vector_store_id := rfl

theorem del_fold_articles (env : Env) (vs : Option String)
    (stale : List String) (acc : DeleteAcc) :
    (stale.foldl (del_step env vs) acc).st.articles
      = stale.foldl (fun l j => delKey l j) acc.st.articles := by
  induction stale generalizing acc with
  | nil => rfl
  | cons hd tl ih =>
      rw [List.foldl_cons, List.foldl_cons, ih]
      rfl

theorem del_fold_vsid (env : Env) (vs : Option String)
    (stale : List String) (acc : DeleteAcc) :
    (stale.foldl (del_step env vs) acc).st.vector_store_id
      = acc.st.vector_store_id := by
  induction stale generalizing acc with
  | nil => rfl
  | cons hd tl ih =>
      rw [List.foldl_cons, ih]
      rfl

theorem del_fold_deleted (env : Env) (vs : Option String)
    (stale : List String) (acc : DeleteAcc) :
    (stale.foldl (del_step env vs) acc).deleted
      = acc.deleted + stale.length := by
  induction stale generalizing acc with
  | nil => rfl
  | cons hd tl ih =>
      rw [List.foldl_cons, ih]
      simp [del_step]
      omega

theorem foldl_delKey_filter (stale : List String)
    (l : List (String × ArticleEntry)) :
    stale.foldl (fun l2 j => delKey l2 j) l
      = l.filter (fun kv => stale.contains kv.1 = false) := by
  induction stale generalizing l with
  | nil => simp
  | cons hd tl ih =>
      rw [List.foldl_cons, ih, delKey, List.filter_filter]
      apply List.filter_congr
      intro kv _
      by_cases h1 : kv.1 = hd <;> by_cases h2 : tl.contains kv.1 <;>
        simp [h1, h2, List.contains_cons]

theorem deletion_pass_articles (env : Env) (vs : Option String)
    (observed : List String) (st : StateJson) :
    (deletion_pass env vs observed st).st.articles
      = st.articles.filter (fun kv => observed.contains kv.1) := by
  rw [deletion_pass]
  rw [del_fold_articles, foldl_delKey_filter]
  apply List.filter_congr
  intro kv hkv
  have hmem : kv.1 ∈ get_all_article_ids st := by
    simpa [get_all_article_ids] using List.mem_map_of_mem Prod.fst hkv
  by_cases h : kv.1 ∈ observed <;>
    simp [List.mem_filter, get_all_article_ids, hmem, h] <;>
    simpa [get_all_article_ids] using hmem

theorem deletion_pass_vsid (env : Env) (vs : Option String)
    (observed : List String) (st : StateJson) :
    (deletion_pass env vs observed st).st.vector_store_id
      = st.vector_store_id := by
  rw [deletion_pass, del_fold_vsid]

theorem deletion_pass_deleted (env : Env) (vs : Option String)
    (observed : List String) (st : StateJson) :
    (deletion_pass env vs observed st).deleted
      = ((get_all_article_ids st).filter
          (fun j => observed.contains j = false)).length := by
  rw [deletion_pass, del_fold_deleted]
  simp

/-- When every tracked key is observed, the deletion pass does nothing. -/
theorem deletion_pass_noop (env : Env) (vs : Option String)
    (observed : List String) (st : StateJson)
    (h : ∀ j ∈ get_all_article_ids st, observed.contains j = true) :
    deletion_pass env vs observed st = ⟨st, 0, []⟩ := by
  rw [deletion_pass]
  have hstale : (get_all_article_ids st).filter
      (fun j => observed.contains j = false) = [] := by
    rw [List.filter_eq_nil_iff]
    intro j hj
    simpa using h j hj
  rw [hstale]
  rfl

/-! ## Structural lemmas about the store bootstrap -/

theorem boot_articles (client : Bool) (retrieveOk : String → Bool)
    (createResult : Option String) (st : StateJson) :
    (get_or_create_vector_store client retrieveOk createResult st).2.1.articles
      = st.articles := by
  by_cases hc : client = false
  · simp [get_or_create_vector_store, hc]
  · rcases hv : get_vector_store_id st with _ | v
    · cases createResult <;>
        simp [get_or_create_vector_store, hc, hv, truthyO, set_vector_store_id]
    · by_cases hvt : truthyS v
      · by_cases hr : retrieveOk v
        · simp [get_or_create_vector_store, hc, hv, hvt, hr, truthyO]
        · cases createResult <;>
            simp [get_or_create_vector_store, hc, hv, hvt, hr, truthyO,
              set_vector_store_id]
      · cases createResult <;>
          simp [get_or_create_vector_store, hc, hv, hvt, truthyO,
            set_vector_store_id]

/-- Running the store bootstrap on its own output state changes nothing
and yields the same store id. -/
theorem boot_idem (client : Bool) (retrieveOk : String → Bool)
    (createResult : Option String) (st : StateJson) :
    get_or_create_vector_store client retrieveOk createResult
        (get_or_create_vector_store client retrieveOk createResult st).2.1
      = ((get_or_create_vector_store client retrieveOk createResult st).1,
         (get_or_create_vector_store client retrieveOk createResult st).2.1,
         (get_or_create_vector_store client retrieveOk createResult
            (get_or_create_vector_store client retrieveOk createResult st).2.1).2.2) := by
  by_cases hc : client = false
  · simp [get_or_create_vector_store, hc]
  · rcases hv : st.vector_store_id with _ | v
    · cases hcr : createResult with
      | none =>
          simp [get_or_create_vector_store, hc, hv, hcr, truthyO, get_vector_store_id]
      | some c =>
          by_cases hct : truthyS c
          · by_cases hr : retrieveOk c
            · simp [get_or_create_vector_store, hc, hv, hcr, truthyO,
                get_vector_store_id, set_vector_store_id, hct, hr]
            · simp [get_or_create_vector_store, hc, hv, hcr, truthyO,
                get_vector_store_id, set_vector_store_id, hct, hr]
          · simp [get_or_create_vector_store, hc, hv, hcr, truthyO,
              get_vector_store_id, set_vector_store_id, hct]
    · by_cases hvt : truthyS v
      · by_cases hr : retrieveOk v
        · simp [get_or_create_vector_store, hc, hv, truthyO,
            get_vector_store_id, hvt, hr]
        · cases hcr : createResult with
          | none =>
              simp [get_or_create_vector_store, hc, hv, hcr, truthyO,
                get_vector_store_id, hvt, hr]
          | some c =>
              by_cases hct : truthyS c
              · by_cases hr2 : retrieveOk c
                · simp [get_or_create_vector_store, hc, hv, hcr, truthyO,
                    get_vector_store_id, set_vector_store_id, hvt, hr, hct, hr2]
                · simp [get_or_create_vector_store, hc, hv, hcr, truthyO,
                    get_vector_store_id, set_vector_store_id, hvt, hr, hct, hr2]
              · simp [get_or_create_vector_store, hc, hv, hcr, truthyO,
                  get_vector_store_id, set_vector_store_id, hvt, hr, hct]
      · cases hcr : createResult with
        | none =>
            simp [get_or_create_vector_store, hc, hv, hcr, truthyO,
              get_vector_store_id, hvt]
        | some c =>
            by_cases hct : truthyS c
            · by_cases hr2 : retrieveOk c
              · simp [get_or_create_vector_store, hc, hv, hcr, truthyO,
                  get_vector_store_id, set_vector_store_id, hvt, hct, hr2]
              · simp [get_or_create_vector_store, hc, hv, hcr, truthyO,
                  get_vector_store_id, set_vector_store_id, hvt, hct, hr2]
            · simp [get_or_create_vector_store, hc, hv, hcr, truthyO,
                get_vector_store_id, set_vector_store_id, hvt, hct]

/-! ## Case lemmas for one upsert step -/

theorem skip_decision_true_iff (entry : Option ArticleEntry)
    (content_hash : String) (lm : Option String) (ex : Bool) :
    skip_decision entry content_hash lm ex = true
      ↔ ∃ e, entry = some e ∧ e.hash = content_hash
          ∧ ((truthyO e.last_modified = true ∧ e.last_modified = lm)
              ∨ ex = true) := by
  cases entry with
  | none => simp [skip_decision]
  | some e =>
      simp only [skip_decision, Bool.or_eq_true, Bool.and_eq_true, beq_iff_eq,
        Option.some.injEq]
      constructor
      · rintro (⟨⟨ht, hm⟩, hh⟩ | ⟨hh, hx⟩)
        · exact ⟨e, rfl, hh, Or.inl ⟨ht, hm⟩⟩
        · exact ⟨e, rfl, hh, Or.inr hx⟩
      · rintro ⟨e2, he, hh, (⟨ht, hm⟩ | hx)⟩
        · subst he; exact Or.inl ⟨⟨ht, hm⟩, hh⟩
        · subst he; exact Or.inr ⟨hh, hx⟩

theorem skip_decision_false_of_hash_ne (entry : Option ArticleEntry)
    (content_hash : String) (lm : Option String) (ex : Bool)
    (h : ∀ e, entry = some e → e.hash ≠ content_hash) :
    skip_decision entry content_hash lm ex = false := by
  cases entry with
  | none => rfl
  | some e =>
      have he := h e rfl
      simp [skip_decision, he]

theorem upsert_step_of_skip (env : Env) (vs : Option String) (acc : UpsertAcc)
    (a : Article) (d : ProcessedDoc)
    (hp : process_article env.md env.outputDir a = some d)
    (hs : skip_decision (get_article_state acc.st (articlePyId a))
      d.content_hash d.last_modified (acc.fs.contains d.filepath) = true) :
    upsert_step env vs acc a
      = { acc with stats :=
            { acc.stats with skipped := acc.stats.skipped + 1 } } := by
  rw [upsert_step, hp]
  simp only [hs, if_true]

theorem upsert_step_st_noskip_store (env : Env) (vs : Option String)
    (acc : UpsertAcc) (a : Article) (d : ProcessedDoc) (fid : String)
    (hp : process_article env.md env.outputDir a = some d)
    (hs : skip_decision (get_article_state acc.st (articlePyId a))
      d.content_hash d.last_modified (acc.fs.contains d.filepath) = false)
    (hw : env.writeOk d.filepath = true)
    (hvs : truthyO vs = true)
    (hu : upload_file env.client env.uploadResult d.filepath = some fid) :
    (upsert_step env vs acc a).st.articles
      = setKey acc.st.articles (articleKey a)
          ⟨d.content_hash, some fid, d.last_modified, env.now⟩ := by
  have hs2 : skip_decision (get_article_state acc.st (articlePyId a))
      d.content_hash d.last_modified (decide (d.filepath ∈ acc.fs)) = false := by
    simpa using hs
  rw [upsert_step, hp]
  simp [hs2, hw, hvs, hu, update_article_state, articlePyId_str]

theorem upsert_step_st_noskip_local (env : Env) (vs : Option String)
    (acc : UpsertAcc) (a : Article) (d : ProcessedDoc)
    (hp : process_article env.md env.outputDir a = some d)
    (hs : skip_decision (get_article_state acc.st (articlePyId a))
      d.content_hash d.last_modified (acc.fs.contains d.filepath) = false)
    (hw : env.writeOk d.filepath = true)
    (hvs : truthyO vs = false) :
    (upsert_step env vs acc a).st.articles
      = setKey acc.st.articles (articleKey a)
          ⟨d.content_hash, none, d.last_modified, env.now⟩ := by
  have hs2 : skip_decision (get_article_state acc.st (articlePyId a))
      d.content_hash d.last_modified (decide (d.filepath ∈ acc.fs)) = false := by
    simpa using hs
  rw [upsert_step, hp]
  simp [hs2, hw, hvs, update_article_state, articlePyId_str]

theorem upsert_step_st_upload_failed (env : Env) (vs : Option String)
    (acc : UpsertAcc) (a : Article) (d : ProcessedDoc)
    (hp : process_article env.md env.outputDir a = some d)
    (hs : skip_decision (get_article_state acc.st (articlePyId a))
      d.content_hash d.last_modified (acc.fs.contains d.filepath) = false)
    (hw : env.writeOk d.filepath = true)
    (hvs : truthyO vs = true)
    (hu : upload_file env.client env.uploadResult d.filepath = none) :
    (upsert_step env vs acc a).st = acc.st
      ∧ (upsert_step env vs acc a).stats.failed = true := by
  have hs2 : skip_decision (get_article_state acc.st (articlePyId a))
      d.content_hash d.last_modified (decide (d.filepath ∈ acc.fs)) = false := by
    simpa using hs
  rw [upsert_step, hp]
  simp [hs2, hw, hvs, hu]

theorem upsert_step_fs_noskip (env : Env) (vs : Option String)
    (acc : UpsertAcc) (a : Article) (d : ProcessedDoc)
    (hp : process_article env.md env.outputDir a = some d)
    (hs : skip_decision (get_article_state acc.st (articlePyId a))
      d.content_hash d.last_modified (acc.fs.contains d.filepath) = false)
    (hw : env.writeOk d.filepath = true) :
    d.filepath ∈ (upsert_step env vs acc a).fs := by
  by_cases hcont : acc.fs.contains d.filepath
  · exact upsert_step_fs_mono env vs acc a d.filepath (by simpa using hcont)
  · have hcont2 : ¬(d.filepath ∈ acc.fs) := by simpa using hcont
    rw [upsert_step, hp]
    simp only [hs, hw, Bool.false_eq_true, if_false, if_true]
    by_cases hv : truthyO vs
    · simp only [hv, if_true]
      cases hu : upload_file env.client env.uploadResult d.filepath with
      | none => simp [hcont2]
      | some fid => simp [hcont2]
    · simp only [Bool.not_eq_true] at hv
      simp only [hv, Bool.false_eq_true, if_false]
      simp [hcont2]

/-! ## The all-skip argument (idempotence) -/

/-- An article the reconciler will certainly skip against this ledger and
filesystem: its ledger entry carries the current fingerprint and either the
marker fast path applies or the target file exists. -/
def Ready (env : Env) (st : StateJson) (fs : List String) (a : Article) :
    Prop :=
  match process_article env.md env.outputDir a with
  | none => True
  | some d =>
      ∃ e, lookupKey st.articles (articleKey a) = some e
        ∧ e.hash = d.content_hash
        ∧ ((truthyO e.last_modified = true ∧ e.last_modified = d.last_modified)
            ∨ fs.contains d.filepath = true)

theorem ready_skip (env : Env) (st : StateJson) (fs : List String)
    (a : Article) (d : ProcessedDoc)
    (hp : process_article env.md env.outputDir a = some d)
    (hr : Ready env st fs a) :
    skip_decision (get_article_state st (articlePyId a)) d.content_hash
      d.last_modified (fs.contains d.filepath) = true := by
  rw [Ready, hp] at hr
  rcases hr with ⟨e, he, hh, hrest⟩
  have hentry : get_article_state st (articlePyId a) = some e := by
    rw [get_article_state, articlePyId_str]
    exact he
  rw [skip_decision_true_iff]
  exact ⟨e, hentry, hh, hrest⟩

/-- If every article of the list is `Ready`, the upsert pass only counts
skips: ledger, filesystem and trace are untouched and the skip counter
advances by the number of body-bearing articles. -/
theorem upsert_all_skip (env : Env) (vs : Option String) (acc : UpsertAcc)
    (l : List Article)
    (h : ∀ a ∈ l, Ready env acc.st acc.fs a) :
    upsert_pass env vs acc l
      = { acc with stats :=
            { acc.stats with skipped := acc.stats.skipped
                + (l.filter
                    (fun a => (process_article env.md env.outputDir a).isSome)).length } } := by
  induction l generalizing acc with
  | nil => simp [upsert_pass]
  | cons hd tl ih =>
      rw [upsert_pass, List.foldl_cons, ← upsert_pass]
      cases hp : process_article env.md env.outputDir hd with
      | none =>
          have hstep : upsert_step env vs acc hd = acc := by
            rw [upsert_step, hp]
          rw [hstep, ih acc (fun a ha => h a (List.mem_cons_of_mem _ ha))]
          simp [List.filter_cons, hp]
      | some d =>
          have hskip := ready_skip env acc.st acc.fs hd d hp
            (h hd (List.mem_cons_self _ _))
          have hstep := upsert_step_of_skip env vs acc hd d hp hskip
          rw [hstep]
          have hready : ∀ a ∈ tl,
              Ready env ({ acc with stats :=
                { acc.stats with skipped := acc.stats.skipped + 1 } } : UpsertAcc).st
                ({ acc with stats :=
                  { acc.stats with skipped := acc.stats.skipped + 1 } } : UpsertAcc).fs a :=
            fun a ha => h a (List.mem_cons_of_mem _ ha)
          rw [ih _ hready]
          simp [List.filter_cons, hp]
          omega

/-- Distinct list positions have distinct keys when the key list is
`Nodup`. -/
theorem key_ne_of_nodup (l : List Article) (hd : Article) (a : Article)
    (hnd : ((hd :: l).map articleKey).Nodup) (ha : a ∈ l) :
    articleKey a ≠ articleKey hd := by
  intro he
  rw [List.map_cons, List.nodup_cons] at hnd
  exact hnd.1 (he ▸ List.mem_map_of_mem articleKey ha)

/-- After a full upsert pass with distinct identifiers, writable files and
successful uploads, every article of the list is `Ready` against the
resulting ledger and filesystem. -/
theorem upsert_ready (env : Env) (vs : Option String) (acc : UpsertAcc)
    (l : List Article)
    (hnd : (l.map articleKey).Nodup)
    (hw : ∀ p, env.writeOk p = true)
    (hu : ∀ p, (env.uploadResult p).isSome = true) :
    ∀ a ∈ l, Ready env (upsert_pass env vs acc l).st
      (upsert_pass env vs acc l).fs a := by
  induction l generalizing acc with
  | nil => intro a ha; cases ha
  | cons hd tl ih =>
      intro a ha
      rw [upsert_pass, List.foldl_cons, ← upsert_pass]
      rcases List.mem_cons.mp ha with rfl | hatl
      · -- the head article: analyse its own step, then use preservation
        cases hp : process_article env.md env.outputDir a with
        | none => rw [Ready, hp]; trivial
        | some d =>
            rw [Ready, hp]
            have hkey : articleKey a ∉ tl.map articleKey := by
              rw [List.map_cons, List.nodup_cons] at hnd
              exact hnd.1
            have hpres := upsert_pass_key_other env vs
              (upsert_step env vs acc a) tl (articleKey a) hkey
            by_cases hs : skip_decision (get_article_state acc.st (articlePyId a))
                d.content_hash d.last_modified (acc.fs.contains d.filepath)
            · -- skipped: the old entry already matches
              rcases (skip_decision_true_iff _ _ _ _).mp hs with ⟨e, he, hh, hrest⟩
              have he2 : lookupKey acc.st.articles (articleKey a) = some e := by
                rw [get_article_state, articlePyId_str] at he
                exact he
              have hstep := upsert_step_of_skip env vs acc a d hp hs
              refine ⟨e, ?_, hh, ?_⟩
              · rw [hpres, hstep]
                exact he2
              · rcases hrest with hm | hfs
                · exact Or.inl hm
                · refine Or.inr ?_
                  have hmem : d.filepath ∈ acc.fs := by simpa using hfs
                  have : d.filepath ∈ (upsert_pass env vs
                      (upsert_step env vs acc a) tl).fs :=
                    upsert_pass_fs_mono env vs _ tl _
                      (by rw [hstep]; exact hmem)
                  simpa using this
            · -- written and uploaded (or local-only): the fresh entry matches
              have hs2 : skip_decision (get_article_state acc.st (articlePyId a))
                  d.content_hash d.last_modified (acc.fs.contains d.filepath) = false := by
                simpa using hs
              have hfs : d.filepath ∈ (upsert_pass env vs
                  (upsert_step env vs acc a) tl).fs :=
                upsert_pass_fs_mono env vs _ tl _
                  (upsert_step_fs_noskip env vs acc a d hp hs2 (hw _))
              by_cases hv : truthyO vs
              · rcases ho : upload_file env.client env.uploadResult d.filepath with _ | fid
                · -- impossible: uploads succeed
                  exfalso
                  rw [upload_file] at ho
                  by_cases hc : env.client = false
                  · rw [if_pos hc] at ho; cases ho
                  · rw [if_neg hc] at ho
                    have := hu d.filepath
                    rw [ho] at this
                    cases this
                · refine ⟨⟨d.content_hash, some fid, d.last_modified, env.now⟩, ?_, rfl, Or.inr ?_⟩
                  · rw [hpres,
                      upsert_step_st_noskip_store env vs acc a d fid hp hs2 (hw _) hv ho]
                    exact lookupKey_setKey_self _ _ _
                  · simpa using hfs
              · have hv2 : truthyO vs = false := by simpa using hv
                refine ⟨⟨d.content_hash, none, d.last_modified, env.now⟩, ?_, rfl, Or.inr ?_⟩
                · rw [hpres,
                    upsert_step_st_noskip_local env vs acc a d hp hs2 (hw _) hv2]
                  exact lookupKey_setKey_self _ _ _
                · simpa using hfs
      · -- a later article: induction hypothesis on the tail
        have hnd2 : (tl.map articleKey).Nodup := by
          rw [List.map_cons, List.nodup_cons] at hnd
          exact hnd.2
        exact ih (upsert_step env vs acc hd) hnd2 a hatl

/-! ## Per-article outcome of the upsert pass (upload failure isolation) -/

/-- With distinct identifiers, an article whose stored fingerprint does not
match, whose write succeeds, but whose upload returns no id, leaves its own
ledger entry untouched and flags the run. -/
theorem upsert_pass_upload_failed (env : Env) (vs : Option String)
    (acc : UpsertAcc) (l : List Article) (a : Article) (d : ProcessedDoc)
    (hnd : (l.map articleKey).Nodup) (ha : a ∈ l)
    (hp : process_article env.md env.outputDir a = some d)
    (hmis : ∀ e, lookupKey acc.st.articles (articleKey a) = some e
      → e.hash ≠ d.content_hash)
    (hw : env.writeOk d.filepath = true)
    (hvs : truthyO vs = true)
    (hcl : env.client = true)
    (hu : env.uploadResult d.filepath = none) :
    lookupKey (upsert_pass env vs acc l).st.articles (articleKey a)
        = lookupKey acc.st.articles (articleKey a)
      ∧ (upsert_pass env vs acc l).stats.failed = true := by
  induction l generalizing acc with
  | nil => cases ha
  | cons hd tl ih =>
      rw [upsert_pass, List.foldl_cons, ← upsert_pass]
      rcases List.mem_cons.mp ha with rfl | hatl
      · have hs : skip_decision (get_article_state acc.st (articlePyId a))
            d.content_hash d.last_modified (acc.fs.contains d.filepath) = false := by
          apply skip_decision_false_of_hash_ne
          intro e he
          apply hmis
          rw [get_article_state, articlePyId_str] at he
          exact he
        have hup : upload_file env.client env.uploadResult d.filepath = none := by
          rw [upload_file, hcl]
          simpa using hu
        have hstep := upsert_step_st_upload_failed env vs acc a d hp hs hw hvs hup
        have hkey : articleKey a ∉ tl.map articleKey := by
          rw [List.map_cons, List.nodup_cons] at hnd
          exact hnd.1
        constructor
        · rw [upsert_pass_key_other env vs _ tl (articleKey a) hkey, hstep.1]
        · exact upsert_pass_failed_mono env vs _ tl hstep.2
      · have hne : articleKey a ≠ articleKey hd := key_ne_of_nodup tl hd a hnd hatl
        have hnd2 : (tl.map articleKey).Nodup := by
          rw [List.map_cons, List.nodup_cons] at hnd
          exact hnd.2
        have hpres := upsert_step_key_other env vs acc hd (articleKey a) hne
        have hmis2 : ∀ e,
            lookupKey (upsert_step env vs acc hd).st.articles (articleKey a) = some e
              → e.hash ≠ d.content_hash := by
          intro e he
          exact hmis e (by rw [← hpres]; exact he)
        rcases ih (upsert_step env vs acc hd) hnd2 hatl hmis2 with ⟨h1, h2⟩
        exact ⟨by rw [h1, hpres], h2⟩

/-- With distinct identifiers, an article whose stored fingerprint does not
match, whose write succeeds, and whose upload returns an id, ends the pass
with the freshly written ledger entry. -/
theorem upsert_pass_upload_ok (env : Env) (vs : Option String)
    (acc : UpsertAcc) (l : List Article) (a : Article) (d : ProcessedDoc)
    (fid : String)
    (hnd : (l.map articleKey).Nodup) (ha : a ∈ l)
    (hp : process_article env.md env.outputDir a = some d)
    (hmis : ∀ e, lookupKey acc.st.articles (articleKey a) = some e
      → e.hash ≠ d.content_hash)
    (hw : env.writeOk d.filepath = true)
    (hvs : truthyO vs = true)
    (hcl : env.client = true)
    (hu : env.uploadResult d.filepath = some fid) :
    lookupKey (upsert_pass env vs acc l).st.articles (articleKey a)
      = some ⟨d.content_hash, some fid, d.last_modified, env.now⟩ := by
  induction l generalizing acc with
  | nil => cases ha
  | cons hd tl ih =>
      rw [upsert_pass, List.foldl_cons, ← upsert_pass]
      rcases List.mem_cons.mp ha with rfl | hatl
      · have hs : skip_decision (get_article_state acc.st (articlePyId a))
            d.content_hash d.last_modified (acc.fs.contains d.filepath) = false := by
          apply skip_decision_false_of_hash_ne
          intro e he
          apply hmis
          rw [get_article_state, articlePyId_str] at he
          exact he
        have hup : upload_file env.client env.uploadResult d.filepath = some fid := by
          rw [upload_file, hcl]
          simpa using hu
        have hkey : articleKey a ∉ tl.map articleKey := by
          rw [List.map_cons, List.nodup_cons] at hnd
          exact hnd.1
        rw [upsert_pass_key_other env vs _ tl (articleKey a) hkey,
          upsert_step_st_noskip_store env vs acc a d fid hp hs hw hvs hup]
        exact lookupKey_setKey_self _ _ _
      · have hne : articleKey a ≠ articleKey hd := key_ne_of_nodup tl hd a hnd hatl
        have hnd2 : (tl.map articleKey).Nodup := by
          rw [List.map_cons, List.nodup_cons] at hnd
          exact hnd.2
        have hpres := upsert_step_key_other env vs acc hd (articleKey a) hne
        refine ih (upsert_step env vs acc hd) hnd2 hatl ?_
        intro e he
        exact hmis e (by rw [← hpres]; exact he)

/-- Looking up a key that the filter keeps sees through the filter. -/
theorem lookupKey_filter_key (l : List (String × ArticleEntry))
    (observed : List String) (k : String) (hk : observed.contains k = true) :
    lookupKey (l.filter (fun kv => observed.contains kv.1)) k
      = lookupKey l k := by
  have hkm : k ∈ observed := by simpa using hk
  induction l with
  | nil => rfl
  | cons hd tl ih =>
      by_cases h : hd.1 = k
      · rw [List.filter_cons]
        simp [h, hkm, lookupKey]
      · rw [List.filter_cons]
        by_cases h2 : observed.contains hd.1 = true
        · have h2m : hd.1 ∈ observed := by simpa using h2
          simpa [h2m, lookupKey, h] using ih
        · have h2m : ¬(hd.1 ∈ observed) := by simpa using h2
          simpa [h2m, lookupKey, h] using ih

/-- Looking up a key that the filter rejects yields nothing. -/
theorem lookupKey_filter_out (l : List (String × ArticleEntry))
    (observed : List String) (k : String) (hk : observed.contains k = false) :
    lookupKey (l.filter (fun kv => observed.contains kv.1)) k = none := by
  have hkm : ¬(k ∈ observed) := by simpa using hk
  induction l with
  | nil => rfl
  | cons hd tl ih =>
      rw [List.filter_cons]
      by_cases h2 : observed.contains hd.1 = true
      · have h2m : hd.1 ∈ observed := by simpa using h2
        have hne : hd.1 ≠ k := fun e => hkm (e ▸ h2m)
        simpa [h2m, lookupKey, hne] using ih
      · have h2m : ¬(hd.1 ∈ observed) := by simpa using h2
        simpa [h2m, lookupKey] using ih

/-! ## The trace of the deletion pass -/

theorem del_events_congr (env : Env) (vs : Option String) (st1 st2 : StateJson)
    (j : String)
    (h : get_article_state st1 (.strId j) = get_article_state st2 (.strId j)) :
    del_events env vs st1 j = del_events env vs st2 j := by
  rw [del_events, del_events, h]

theorem del_fold_events (env : Env) (vs : Option String) (stale : List String)
    (acc : DeleteAcc) (hnd : stale.Nodup) :
    (stale.foldl (del_step env vs) acc).events
      = acc.events ++ (stale.map (del_events env vs acc.st)).flatten := by
  induction stale generalizing acc with
  | nil => simp
  | cons hd tl ih =>
      rw [List.nodup_cons] at hnd
      rw [List.foldl_cons, ih _ hnd.2]
      have hmap : tl.map (del_events env vs (del_step env vs acc hd).st)
          = tl.map (del_events env vs acc.st) := by
        apply List.map_congr_left
        intro j hj
        have hne : j ≠ hd := fun e => hnd.1 (e ▸ hj)
        apply del_events_congr
        rw [get_article_state, get_article_state, del_step_articles]
        exact lookupKey_delKey_other _ _ _ hne
      rw [hmap]
      rw [show (del_step env vs acc hd).events
          = acc.events ++ del_events env vs acc.st hd from rfl]
      simp

theorem count_flatten_map (f : String → List VSEvent) (ev : VSEvent)
    (l : List String) :
    ((l.map f).flatten.count ev) = (l.map (fun j => (f j).count ev)).sum := by
  induction l with
  | nil => rfl
  | cons hd tl ih => simp [List.count_append, ih]

theorem sum_eq_one_of_single (g : String → Nat) (l : List String) (i : String)
    (hnd : l.Nodup) (hi : i ∈ l) (h1 : g i = 1)
    (h0 : ∀ j ∈ l, j ≠ i → g j = 0) :
    (l.map g).sum = 1 := by
  induction l with
  | nil => cases hi
  | cons hd tl ih =>
      rw [List.nodup_cons] at hnd
      rcases List.mem_cons.mp hi with rfl | hitl
      · have hz : (tl.map g).sum = 0 := by
          apply List.sum_eq_zero
          intro x hx
          rcases List.mem_map.mp hx with ⟨j, hj, rfl⟩
          exact h0 j (List.mem_cons_of_mem _ hj) (fun e => hnd.1 (e ▸ hj))
        simp [h1, hz]
      · have hne : hd ≠ i := fun e => hnd.1 (e ▸ hitl)
        rw [List.map_cons, List.sum_cons, h0 hd (List.mem_cons_self _ _) hne,
          Nat.zero_add]
        exact ih hnd.2 hitl
          (fun j hj hne2 => h0 j (List.mem_cons_of_mem _ hj) hne2)

/-! ## The digest space of MD5 is finite -/

theorem w32add_lt (a b : Nat) : w32add a b < 4294967296 :=
  Nat.mod_lt _ (by norm_num)

theorem md5Block_lt (st : Nat × Nat × Nat × Nat) (block : List Nat) :
    (md5Block st block).1 < 4294967296
      ∧ (md5Block st block).2.1 < 4294967296
      ∧ (md5Block st block).2.2.1 < 4294967296
      ∧ (md5Block st block).2.2.2 < 4294967296 := by
  rw [md5Block]
  exact ⟨w32add_lt _ _, w32add_lt _ _, w32add_lt _ _, w32add_lt _ _⟩

theorem md5Words_lt (msg : List Nat) :
    (md5Words msg).1 < 4294967296
      ∧ (md5Words msg).2.1 < 4294967296
      ∧ (md5Words msg).2.2.1 < 4294967296
      ∧ (md5Words msg).2.2.2 < 4294967296 := by
  rw [md5Words]
  generalize chunks64 (md5Pad msg) = blocks
  induction blocks using List.reverseRecOn with
  | nil => norm_num
  | append_singleton bs b ih =>
      rw [List.foldl_append, List.foldl_cons, List.foldl_nil]
      exact md5Block_lt _ b

theorem digit_lt (a x m k : Nat) (ha : a < m) (hx : x < k) :
    a + m * x < m * k := by
  calc a + m * x < m + m * x := Nat.add_lt_add_right ha _
    _ = m * (x + 1) := by ring
    _ ≤ m * k := Nat.mul_le_mul_left m hx

theorem md5Nat_lt (s : String) :
    md5Nat s < 340282366920938463463374607431768211456 := by
  rw [md5Nat]
  rcases md5Words_lt (strBytes s) with ⟨h1, h2, h3, h4⟩
  have s1 : (md5Words (strBytes s)).2.2.1
      + 4294967296 * (md5Words (strBytes s)).2.2.2
      < 4294967296 * 4294967296 := digit_lt _ _ _ _ h3 h4
  have s2 : (md5Words (strBytes s)).2.1 + 4294967296
      * ((md5Words (strBytes s)).2.2.1
        + 4294967296 * (md5Words (strBytes s)).2.2.2)
      < 4294967296 * (4294967296 * 4294967296) := digit_lt _ _ _ _ h2 s1
  have s3 := digit_lt _ _ 4294967296 (4294967296 * (4294967296 * 4294967296))
    h1 s2
  calc (md5Words (strBytes s)).1 + 4294967296 * ((md5Words (strBytes s)).2.1
        + 4294967296 * ((md5Words (strBytes s)).2.2.1
          + 4294967296 * (md5Words (strBytes s)).2.2.2))
      < 4294967296 * (4294967296 * (4294967296 * 4294967296)) := s3
    _ = 340282366920938463463374607431768211456 := by norm_num

/-- Base-`2^32` digits below the base are determined by the packed value. -/
theorem digit_decompose (a x m : Nat) (ha : a < m) (hm : 0 < m) :
    (a + m * x) % m = a ∧ (a + m * x) / m = x := by
  constructor
  · rw [Nat.add_mul_mod_self_left, Nat.mod_eq_of_lt ha]
  · rw [Nat.add_mul_div_left _ _ hm, Nat.div_eq_of_lt ha, Nat.zero_add]

theorem md5Words_eq_of_md5Nat_eq (s1 s2 : String)
    (h : md5Nat s1 = md5Nat s2) :
    md5Words (strBytes s1) = md5Words (strBytes s2) := by
  rcases md5Words_lt (strBytes s1) with ⟨a1, b1, c1, d1⟩
  rcases md5Words_lt (strBytes s2) with ⟨a2, b2, c2, d2⟩
  rw [md5Nat, md5Nat] at h
  have hm : (0 : Nat) < 4294967296 := by norm_num
  have e1 : (md5Words (strBytes s1)).1 = (md5Words (strBytes s2)).1 := by
    have q1 := (digit_decompose (md5Words (strBytes s1)).1
      ((md5Words (strBytes s1)).2.1 + 4294967296
        * ((md5Words (strBytes s1)).2.2.1
          + 4294967296 * (md5Words (strBytes s1)).2.2.2)) 4294967296 a1 hm).1
    have q2 := (digit_decompose (md5Words (strBytes s2)).1
      ((md5Words (strBytes s2)).2.1 + 4294967296
        * ((md5Words (strBytes s2)).2.2.1
          + 4294967296 * (md5Words (strBytes s2)).2.2.2)) 4294967296 a2 hm).1
    rw [← q1, ← q2, h]
  have h2 : (md5Words (strBytes s1)).2.1
      + 4294967296 * ((md5Words (strBytes s1)).2.2.1
        + 4294967296 * (md5Words (strBytes s1)).2.2.2)
      = (md5Words (strBytes s2)).2.1
      + 4294967296 * ((md5Words (strBytes s2)).2.2.1
        + 4294967296 * (md5Words (strBytes s2)).2.2.2) := by
    have q1 := (digit_decompose (md5Words (strBytes s1)).1
      ((md5Words (strBytes s1)).2.1 + 4294967296
        * ((md5Words (strBytes s1)).2.2.1
          + 4294967296 * (md5Words (strBytes s1)).2.2.2)) 4294967296 a1 hm).2
    have q2 := (digit_decompose (md5Words (strBytes s2)).1
      ((md5Words (strBytes s2)).2.1 + 4294967296
        * ((md5Words (strBytes s2)).2.2.1
          + 4294967296 * (md5Words (strBytes s2)).2.2.2)) 4294967296 a2 hm).2
    rw [← q1, ← q2, h]
  have e2 : (md5Words (strBytes s1)).2.1 = (md5Words (strBytes s2)).2.1 := by
    have q1 := (digit_decompose (md5Words (strBytes s1)).2.1
      ((md5Words (strBytes s1)).2.2.1
        + 4294967296 * (md5Words (strBytes s1)).2.2.2) 4294967296 b1 hm).1
    have q2 := (digit_decompose (md5Words (strBytes s2)).2.1
      ((md5Words (strBytes s2)).2.2.1
        + 4294967296 * (md5Words (strBytes s2)).2.2.2) 4294967296 b2 hm).1
    rw [← q1, ← q2, h2]
  have h3 : (md5Words (strBytes s1)).2.2.1
      + 4294967296 * (md5Words (strBytes s1)).2.2.2
      = (md5Words (strBytes s2)).2.2.1
      + 4294967296 * (md5Words (strBytes s2)).2.2.2 := by
    have q1 := (digit_decompose (md5Words (strBytes s1)).2.1
      ((md5Words (strBytes s1)).2.2.1
        + 4294967296 * (md5Words (strBytes s1)).2.2.2) 4294967296 b1 hm).2
    have q2 := (digit_decompose (md5Words (strBytes s2)).2.1
      ((md5Words (strBytes s2)).2.2.1
        + 4294967296 * (md5Words (strBytes s2)).2.2.2) 4294967296 b2 hm).2
    rw [← q1, ← q2, h2]
  have e3 : (md5Words (strBytes s1)).2.2.1 = (md5Words (strBytes s2)).2.2.1 := by
    have q1 := (digit_decompose (md5Words (strBytes s1)).2.2.1
      (md5Words (strBytes s1)).2.2.2 4294967296 c1 hm).1
    have q2 := (digit_decompose (md5Words (strBytes s2)).2.2.1
      (md5Words (strBytes s2)).2.2.2 4294967296 c2 hm).1
    rw [← q1, ← q2, h3]
  have e4 : (md5Words (strBytes s1)).2.2.2 = (md5Words (strBytes s2)).2.2.2 := by
    have q1 := (digit_decompose (md5Words (strBytes s1)).2.2.1
      (md5Words (strBytes s1)).2.2.2 4294967296 c1 hm).2
    have q2 := (digit_decompose (md5Words (strBytes s2)).2.2.1
      (md5Words (strBytes s2)).2.2.2 4294967296 c2 hm).2
    rw [← q1, ← q2, h3]
  have p1 : md5Words (strBytes s1)
      = ((md5Words (strBytes s1)).1, (md5Words (strBytes s1)).2.1,
         (md5Words (strBytes s1)).2.2.1, (md5Words (strBytes s1)).2.2.2) := rfl
  have p2 : md5Words (strBytes s2)
      = ((md5Words (strBytes s2)).1, (md5Words (strBytes s2)).2.1,
         (md5Words (strBytes s2)).2.2.1, (md5Words (strBytes s2)).2.2.2) := rfl
  rw [p1, p2, e1, e2, e3, e4]

theorem md5hex_eq_of_md5Nat_eq (s1 s2 : String) (h : md5Nat s1 = md5Nat s2) :
    md5hex s1 = md5hex s2 := by
  rw [md5hex, md5hex, md5Bytes, md5Bytes, md5Words_eq_of_md5Nat_eq s1 s2 h]

/-! ## A family of articles with pairwise distinct rendered text -/

/-- A title of `n` letters. -/
def titleN (n : Nat) : String := String.mk (List.replicate n 'a')

/-- An article family differing only in title length (identifier `1`,
body `"b"`, URL `"u"`). -/
def articleN (n : Nat) : Article :=
  ⟨some 1, some (titleN n), some "b", some "u", none, none⟩

/-- The rendered text of `articleN n` (markdown conversion taken as the
identity). -/
def contentN (n : Nat) : String :=
  "# " ++ titleN n ++ "\n\nArticle URL: " ++ "u" ++ "\n\n" ++ "b"

theorem process_articleN (n : Nat) :
    process_article (fun s => s) "data/articles" (articleN n)
      = some
          { filepath := osJoin "data/articles"
              (articleKey (articleN n) ++ "-" ++ sanitizeTitle (titleN n) ++ ".md")
            file_content := contentN n
            content_hash := md5hex (contentN n)
            last_modified := none } := by
  rw [process_article]
  rfl

theorem length_contentN (n : Nat) : (contentN n).length = n + 21 := by
  rw [contentN]
  simp only [String.length_append]
  have ht : (titleN n).length = n := by
    rw [titleN]
    show (List.replicate n 'a').length = n
    exact List.length_replicate _ _
  rw [ht]
  have l1 : "# ".length = 2 := by decide
  have l2 : "\n\nArticle URL: ".length = 15 := by decide
  have l3 : "u".length = 1 := by decide
  have l4 : "\n\n".length = 2 := by decide
  have l5 : "b".length = 1 := by decide
  omega

theorem contentN_inj (n m : Nat) (h : contentN n = contentN m) : n = m := by
  have := congrArg String.length h
  rw [length_contentN, length_contentN] at this
  omega

/-! ## The sanitised title contains no foreign characters and no edge dashes -/

theorem head?_dropWhile_not (p : Char → Bool) (l : List Char) (x : Char)
    (h : (l.dropWhile p).head? = some x) : p x = false := by
  induction l with
  | nil => simp [List.dropWhile] at h
  | cons hd tl ih =>
      rw [List.dropWhile_cons] at h
      by_cases hp : p hd
      · rw [if_pos hp] at h
        exact ih h
      · rw [if_neg hp] at h
        simp only [List.head?_cons, Option.some.injEq] at h
        subst h
        simpa using hp

theorem stripCharList_subset (c : Char) (l : List Char) (x : Char)
    (h : x ∈ stripCharList c l) : x ∈ l := by
  rw [stripCharList] at h
  rw [List.mem_reverse] at h
  have h2 := (List.dropWhile_sublist _).subset h
  rw [List.mem_reverse] at h2
  exact (List.dropWhile_sublist _).subset h2

theorem sanitizeTitle_chars (t : String) (x : Char)
    (h : x ∈ (sanitizeTitle t).data) : x.isAlphanum = true ∨ x = '-' := by
  rw [sanitizeTitle, stripChar] at h
  have h2 := stripCharList_subset '-' _ x h
  have h3 : x ∈ (t.data.map
      (fun ch => if ch.isAlphanum then ch else '-')) := h2
  rcases List.mem_map.mp h3 with ⟨orig, _, heq⟩
  by_cases ha : orig.isAlphanum
  · rw [if_pos ha] at heq
    exact Or.inl (heq ▸ ha)
  · rw [if_neg ha] at heq
    exact Or.inr heq.symm

theorem sanitizeTitle_head (t : String) (x : Char)
    (h : (sanitizeTitle t).data.head? = some x) : x ≠ '-' := by
  rw [sanitizeTitle, stripChar] at h
  have hd : ((String.mk (stripCharList '-'
      (String.mk (t.data.map (fun ch => if ch.isAlphanum then ch else '-'))).data)).data)
      = stripCharList '-'
        (t.data.map (fun ch => if ch.isAlphanum then ch else '-')) := rfl
  rw [hd, stripCharList, List.head?_reverse] at h
  -- the head of the final reverse is the last element of the suffix
  -- `dropWhile`, which is the last element of the reversed first strip,
  -- i.e. the head of the first strip — a char that fails `(· = '-')`.
  set A := (t.data.map (fun ch => if ch.isAlphanum then ch else '-')).dropWhile
    (· = '-') with hA
  have hsuff : A.reverse.dropWhile (· = '-') <:+ A.reverse :=
    List.dropWhile_suffix _
  rcases hsuff with ⟨pre, hpre⟩
  have hne : A.reverse.dropWhile (· = '-') ≠ [] := by
    intro he
    rw [he] at h
    simp at h
  have hlast : A.reverse.getLast? = some x := by
    rw [← hpre]
    rw [List.getLast?_append_of_ne_nil pre hne]
    exact h
  rw [List.getLast?_reverse] at hlast
  have := head?_dropWhile_not (· = '-') _ x (by rw [← hA]; exact hlast)
  simpa using this

theorem sanitizeTitle_last (t : String) (x : Char)
    (h : (sanitizeTitle t).data.getLast? = some x) : x ≠ '-' := by
  rw [sanitizeTitle, stripChar] at h
  have hd : ((String.mk (stripCharList '-'
      (String.mk (t.data.map (fun ch => if ch.isAlphanum then ch else '-'))).data)).data)
      = stripCharList '-'
        (t.data.map (fun ch => if ch.isAlphanum then ch else '-')) := rfl
  rw [hd, stripCharList, List.getLast?_reverse] at h
  have := head?_dropWhile_not (· = '-') _ x h
  simpa using this

/-! ## Run-level plumbing -/

theorem run_main_state (env : Env) (st0 : StateJson) (fs0 : List String)
    (articles : List Article) :
    (run_main env st0 fs0 articles).state
      = (upsert_pass env
          (get_or_create_vector_store env.client env.retrieveOk env.createResult st0).1
          ⟨(deletion_pass env
              (get_or_create_vector_store env.client env.retrieveOk env.createResult st0).1
              (articles.map articleKey)
              (get_or_create_vector_store env.client env.retrieveOk env.createResult st0).2.1).st,
            fs0, initStats, []⟩ articles).st := rfl

theorem run_main_fs (env : Env) (st0 : StateJson) (fs0 : List String)
    (articles : List Article) :
    (run_main env st0 fs0 articles).fs
      = (upsert_pass env
          (get_or_create_vector_store env.client env.retrieveOk env.createResult st0).1
          ⟨(deletion_pass env
              (get_or_create_vector_store env.client env.retrieveOk env.createResult st0).1
              (articles.map articleKey)
              (get_or_create_vector_store env.client env.retrieveOk env.createResult st0).2.1).st,
            fs0, initStats, []⟩ articles).fs := rfl

theorem run_main_stats (env : Env) (st0 : StateJson) (fs0 : List String)
    (articles : List Article) :
    (run_main env st0 fs0 articles).stats
      = { (upsert_pass env
            (get_or_create_vector_store env.client env.retrieveOk env.createResult st0).1
            ⟨(deletion_pass env
                (get_or_create_vector_store env.client env.retrieveOk env.createResult st0).1
                (articles.map articleKey)
                (get_or_create_vector_store env.client env.retrieveOk env.createResult st0).2.1).st,
              fs0, initStats, []⟩ articles).stats with
          deleted := (deletion_pass env
              (get_or_create_vector_store env.client env.retrieveOk env.createResult st0).1
              (articles.map articleKey)
              (get_or_create_vector_store env.client env.retrieveOk env.createResult st0).2.1).deleted
          failed := (upsert_pass env
              (get_or_create_vector_store env.client env.retrieveOk env.createResult st0).1
              ⟨(deletion_pass env
                  (get_or_create_vector_store env.client env.retrieveOk env.createResult st0).1
                  (articles.map articleKey)
                  (get_or_create_vector_store env.client env.retrieveOk env.createResult st0).2.1).st,
                fs0, initStats, []⟩ articles).stats.failed
            || env.saveOk = false } := rfl

/-- A key of the observed-filtered ledger is observed. -/
theorem filter_keys_mem (l : List (String × ArticleEntry))
    (observed : List String) (j : String)
    (h : j ∈ ((l.filter (fun kv => observed.contains kv.1)).map Prod.fst)) :
    j ∈ observed := by
  rcases List.mem_map.mp h with ⟨kv, hkv, rfl⟩
  have := List.of_mem_filter hkv
  simpa using this

/-- A structure update that writes the value the field already has is the
identity. -/
theorem set_vector_store_id_self (st : StateJson) (v : Option String)
    (h : st.vector_store_id = v) : set_vector_store_id st v = st := by
  cases st
  rw [set_vector_store_id]
  simp_all

/-- Running the store bootstrap after a run leaves the ledger untouched:
any state whose store id equals the one the first bootstrap left behind is
a fixed point of the bootstrap. -/
theorem boot_after_run (client : Bool) (retrieveOk : String → Bool)
    (createResult : Option String) (st0 st : StateJson)
    (h : st.vector_store_id
      = (get_or_create_vector_store client retrieveOk createResult st0).2.1.vector_store_id) :
    (get_or_create_vector_store client retrieveOk createResult st).2.1 = st := by
  by_cases hc : client = false
  · simp [get_or_create_vector_store, hc]
  · -- the first bootstrap left one of three shapes behind
    have hw : (truthyO st0.vector_store_id = true
          ∧ retrieveOk (st0.vector_store_id.getD "") = true
          ∧ st.vector_store_id = st0.vector_store_id)
        ∨ (createResult = none ∧ st.vector_store_id = st0.vector_store_id)
        ∨ (∃ c, createResult = some c ∧ st.vector_store_id = some c) := by
      rw [get_or_create_vector_store, if_neg hc] at h
      by_cases hvt0 : truthyO (get_vector_store_id st0)
      · by_cases hr0 : retrieveOk ((get_vector_store_id st0).getD "")
        · rw [if_pos hvt0, if_pos hr0] at h
          exact Or.inl ⟨hvt0, hr0, h⟩
        · rw [if_pos hvt0, if_neg hr0] at h
          cases hcr : createResult with
          | none =>
              rw [hcr] at h
              exact Or.inr (Or.inl ⟨rfl, h⟩)
          | some c =>
              rw [hcr] at h
              exact Or.inr (Or.inr ⟨c, rfl,
                by simpa [set_vector_store_id] using h⟩)
      · rw [if_neg hvt0] at h
        cases hcr : createResult with
        | none =>
            rw [hcr] at h
            exact Or.inr (Or.inl ⟨rfl, h⟩)
        | some c =>
            rw [hcr] at h
            exact Or.inr (Or.inr ⟨c, rfl,
              by simpa [set_vector_store_id] using h⟩)
    -- run the second bootstrap
    rw [get_or_create_vector_store, if_neg hc]
    by_cases hvt : truthyO (get_vector_store_id st)
    · by_cases hr : retrieveOk ((get_vector_store_id st).getD "")
      · rw [if_pos hvt, if_pos hr]
      · rw [if_pos hvt, if_neg hr]
        cases hcr : createResult with
        | none => rfl
        | some c =>
            simp only []
            apply set_vector_store_id_self
            rcases hw with ⟨_, hr0, hv⟩ | ⟨hnone, _⟩ | ⟨c2, hc2, hv2⟩
            · -- same stored id on both runs, so retrieval cannot disagree
              exfalso
              rw [get_vector_store_id, hv] at hr
              exact hr hr0
            · rw [hnone] at hcr
              cases hcr
            · rw [hc2] at hcr
              cases hcr
              exact hv2
    · rw [if_neg hvt]
      cases hcr : createResult with
      | none => rfl
      | some c =>
          simp only []
          apply set_vector_store_id_self
          rcases hw with ⟨hvt0, _, hv⟩ | ⟨hnone, _⟩ | ⟨c2, hc2, hv2⟩
          · exfalso
            rw [get_vector_store_id, hv] at hvt
            exact hvt hvt0
          · rw [hnone] at hcr
            cases hcr
          · rw [hc2] at hcr
            cases hcr
            exact hv2

/-! ## The claims -/

/-- C1, counterexample: at a ledger entry whose stored marker is present
and equal to the fresh one and whose stored fingerprint equals the fresh
one, the skip predicate of spec §4.3(c) answers *skip* even though the
target file does not exist — refuting the claim's final assertion that a
matching stored fingerprint with an absent target file is never skipped. -/
theorem c1_counterexample :
    skip_decision
        (some ⟨"h", none, some "2024-01-01T00:00:00", "t"⟩) "h"
        (some "2024-01-01T00:00:00") false = true := by
  decide

/-- C1, amended: the reconciler decides skip exactly when (stored marker
present and equal to the fresh marker and stored fingerprint equal to the
fresh fingerprint) or (stored fingerprint equal and target file present);
when the stored fingerprint matches, the target file is absent, *and the
marker fast path does not apply*, the article is not skipped; moreover any
skip implies `StateManager.needs_update` answers false. -/
theorem c1_skip_predicate (entry : Option ArticleEntry) (ch : String)
    (lm : Option String) (ex : Bool) :
    (skip_decision entry ch lm ex = true
      ↔ ∃ e, entry = some e ∧ e.hash = ch
          ∧ ((truthyO e.last_modified = true ∧ e.last_modified = lm)
              ∨ ex = true))
    ∧ (∀ e, entry = some e → e.hash = ch
        → ¬(truthyO e.last_modified = true ∧ e.last_modified = lm)
        → ex = false → skip_decision entry ch lm ex = false)
    ∧ (skip_decision entry ch lm ex = true
        → ∀ st k, get_article_state st k = entry
          → needs_update st k ch lm = false) := by
  refine ⟨skip_decision_true_iff entry ch lm ex, ?_, ?_⟩
  · intro e he hh hnm hex
    subst he
    subst hex
    by_cases ht : truthyO e.last_modified = true
    · by_cases hm : e.last_modified = lm
      · exact absurd ⟨ht, hm⟩ hnm
      · simp [skip_decision, hm]
    · simp only [Bool.not_eq_true] at ht
      simp [skip_decision, ht]
  · intro hsk st k hga
    rcases (skip_decision_true_iff entry ch lm ex).mp hsk with ⟨e, he, hh, _⟩
    rw [needs_update, hga, he]
    simp [needs_update_entry, hh]

/-- C1, witness for the amended theorem: a ledger entry with a matching
fingerprint but no stored marker and a missing target file is rewritten
(not skipped). -/
theorem c1_skip_predicate_witness :
    skip_decision (some ⟨"h", none, none, "t"⟩) "h" none false = false :=
  (c1_skip_predicate (some ⟨"h", none, none, "t"⟩) "h" none false).2.1
    ⟨"h", none, none, "t"⟩ rfl rfl
    (fun hc => by exact absurd hc.1 (by decide)) rfl

/-- C5: `StateManager._load_state` returns the fresh empty state on a
missing object (`NoSuchKey`), on any other client or read error, on
whitespace-only content, and on content the JSON parser rejects; the
embedding is a total function because every exception reaching
`_load_state` is caught (src/state_manager.py lines 31-54). -/
theorem c5_load_state_absorbs (parse : String → Option StateJson)
    (s : String) :
    load_state parse .noSuchKey = freshState
    ∧ load_state parse .clientError = freshState
    ∧ load_state parse .otherError = freshState
    ∧ (isBlank s = true → load_state parse (.content s) = freshState)
    ∧ (parse s = none → load_state parse (.content s) = freshState) := by
  refine ⟨rfl, rfl, rfl, ?_, ?_⟩
  · intro h
    simp [load_state, h]
  · intro h
    by_cases hb : isBlank s
    · simp [load_state, hb]
    · simp [load_state, hb, h]

/-- C5, witness: empty content and (with a parser rejecting everything)
malformed content both load as the fresh state. -/
theorem c5_load_state_absorbs_witness :
    load_state (fun _ => none) (.content "") = freshState
    ∧ load_state (fun _ => none) (.content "not json [") = freshState :=
  ⟨(c5_load_state_absorbs (fun _ => none) "").2.2.2.1 (by decide),
   (c5_load_state_absorbs (fun _ => none) "not json [").2.2.2.2 rfl⟩

/-- C6: `Scraper.fetch_articles` returns the empty list when the fetch
raises, which is the very output a successful fetch of an empty article
list produces — a fetch failure is indistinguishable from an empty source
at this interface (src/scraper.py lines 34-84). -/
theorem c6_fetch_failure_empty (lm : Option String) :
    fetch_articles .exn = ([] : List Article)
    ∧ fetch_articles (.success lm []) = ([] : List Article)
    ∧ fetch_articles .exn = fetch_articles (.success lm []) :=
  ⟨rfl, rfl, rfl⟩

/-- C9: ledger operations normalise identifiers with `str(...)`: an update
keyed by the integer id is seen by both the integer and the string form of
the key, the removal keyed by the string form deletes that same entry, and
the persisted mapping is keyed by the string form directly
(src/state_manager.py lines 70-95 and 157-164). -/
theorem c9_key_normalisation (st : StateJson) (n : Int) (h : String)
    (fid lm : Option String) (now : String) :
    get_article_state (update_article_state st (.intId n) h fid lm now)
        (.intId n) = some ⟨h, fid, lm, now⟩
    ∧ get_article_state (update_article_state st (.intId n) h fid lm now)
        (.strId (toString n)) = some ⟨h, fid, lm, now⟩
    ∧ get_article_state (update_article_state st (.strId (toString n)) h fid lm now)
        (.intId n) = some ⟨h, fid, lm, now⟩
    ∧ get_article_state
        (remove_article_state (update_article_state st (.intId n) h fid lm now)
          (.strId (toString n))) (.intId n) = none
    ∧ lookupKey (update_article_state st (.intId n) h fid lm now).articles
        (toString n) = some ⟨h, fid, lm, now⟩ := by
  refine ⟨?_, ?_, ?_, ?_, ?_⟩
  · exact lookupKey_setKey_self _ _ _
  · exact lookupKey_setKey_self _ _ _
  · exact lookupKey_setKey_self _ _ _
  · exact lookupKey_delKey_self _ _
  · exact lookupKey_setKey_self _ _ _

/-- C10: every `vector_stores.create` call `get_or_create_vector_store`
emits carries the expiry policy `{anchor: "last_active_at", days: 20}`,
and a stored id whose retrieval fails (e.g. because the idle store
expired) triggers exactly such a creation call instead of reuse
(src/vector_store_manager.py lines 19-56). -/
theorem c10_store_expiry (client : Bool) (retrieveOk : String → Bool)
    (createResult : Option String) (st : StateJson) :
    (∀ anchor days, VSEvent.create anchor days
        ∈ (get_or_create_vector_store client retrieveOk createResult st).2.2
      → anchor = "last_active_at" ∧ days = 20)
    ∧ (client = true → truthyO st.vector_store_id = true
      → retrieveOk (st.vector_store_id.getD "") = false
      → VSEvent.create "last_active_at" 20
          ∈ (get_or_create_vector_store client retrieveOk createResult st).2.2) := by
  constructor
  · intro anchor days hmem
    by_cases hc : client = false
    · simp [get_or_create_vector_store, hc] at hmem
    · rw [get_or_create_vector_store, if_neg hc] at hmem
      by_cases hvt : truthyO (get_vector_store_id st)
      · by_cases hr : retrieveOk ((get_vector_store_id st).getD "")
        · rw [if_pos hvt, if_pos hr] at hmem
          simp at hmem
        · rw [if_pos hvt, if_neg hr] at hmem
          cases hcr : createResult <;> rw [hcr] at hmem <;>
            simp at hmem <;> exact hmem
      · rw [if_neg hvt] at hmem
        cases hcr : createResult <;> rw [hcr] at hmem <;>
          simp at hmem <;> exact hmem
  · intro hcl hvt hr
    have hc : ¬(client = false) := by rw [hcl]; exact fun e => by cases e
    rw [get_or_create_vector_store, if_neg hc]
    have hvt2 : truthyO (get_vector_store_id st) = true := hvt
    have hr2 : ¬(retrieveOk ((get_vector_store_id st).getD "") = true) := by
      rw [show get_vector_store_id st = st.vector_store_id from rfl, hr]
      exact fun e => by cases e
    rw [if_pos hvt2, if_neg hr2]
    cases hcr : createResult <;> simp

/-- C10, witness: with a configured client, a stored id `"vs"` whose
retrieval fails, and a creation returning `"vs_new"`, a creation call with
the 20-day last-activity expiry is emitted. -/
theorem c10_store_expiry_witness :
    VSEvent.create "last_active_at" 20
      ∈ (get_or_create_vector_store true (fun _ => false) (some "vs_new")
          ⟨[], some "vs"⟩).2.2 :=
  (c10_store_expiry true (fun _ => false) (some "vs_new")
      ⟨[], some "vs"⟩).2 rfl (by decide) rfl

/-! ## C4: the deletion pass -/

theorem remove_fvs_raises_irrel (c : Bool) (v f : Option String)
    (r r2 : Bool) :
    remove_file_from_vector_store c v f r
      = remove_file_from_vector_store c v f r2 := by
  cases r <;> cases r2 <;> rfl

theorem remove_foa_raises_irrel (c : Bool) (f : Option String) (r r2 : Bool) :
    remove_file_from_openai c f r = remove_file_from_openai c f r2 := by
  cases r <;> cases r2 <;> rfl

theorem del_events_eq (env : Env) (vs : Option String) (st : StateJson)
    (j : String) :
    del_events env vs st j
      = (if truthyO ((get_article_state st (.strId j)).bind
            (fun e => e.openai_file_id)) && truthyO vs then
          remove_file_from_vector_store env.client vs
            ((get_article_state st (.strId j)).bind (fun e => e.openai_file_id))
            (env.unlinkRaises
              (((get_article_state st (.strId j)).bind
                (fun e => e.openai_file_id)).getD ""))
          ++ remove_file_from_openai env.client
            ((get_article_state st (.strId j)).bind (fun e => e.openai_file_id))
            (env.deleteRaises
              (((get_article_state st (.strId j)).bind
                (fun e => e.openai_file_id)).getD ""))
        else []) := rfl

theorem del_events_raises_irrel (env : Env) (f g : String → Bool)
    (vs : Option String) (st : StateJson) (j : String) :
    del_events { env with unlinkRaises := f, deleteRaises := g } vs st j
      = del_events env vs st j := by
  rw [del_events_eq, del_events_eq]
  split
  · rw [remove_fvs_raises_irrel env.client vs _
        (f (((get_article_state st (.strId j)).bind
          (fun e => e.openai_file_id)).getD ""))
        (env.unlinkRaises (((get_article_state st (.strId j)).bind
          (fun e => e.openai_file_id)).getD "")),
      remove_foa_raises_irrel env.client _
        (g (((get_article_state st (.strId j)).bind
          (fun e => e.openai_file_id)).getD ""))
        (env.deleteRaises (((get_article_state st (.strId j)).bind
          (fun e => e.openai_file_id)).getD ""))]
  · rfl

theorem deletion_pass_raises_irrel (env : Env) (f g : String → Bool)
    (vs : Option String) (observed : List String) (st : StateJson) :
    deletion_pass { env with unlinkRaises := f, deleteRaises := g } vs observed st
      = deletion_pass env vs observed st := by
  rw [deletion_pass, deletion_pass]
  generalize (get_all_article_ids st).filter
    (fun j => observed.contains j = false) = stale
  generalize (⟨st, 0, []⟩ : DeleteAcc) = acc
  induction stale generalizing acc with
  | nil => rfl
  | cons hd tl ih =>
      rw [List.foldl_cons, List.foldl_cons]
      rw [show del_step { env with unlinkRaises := f, deleteRaises := g } vs acc hd
          = del_step env vs acc hd from ?_]
      · exact ih _
      · rw [del_step, del_step, del_events_raises_irrel]

/-- C4: a tracked identifier absent from the fetched list, with a recorded
blob id and a store configured, triggers the remote unlink and blob-delete
call exactly once each (provided no other stale identifier records the
same blob); the identifier is removed from the ledger and the deleted
counter counts every stale identifier, regardless of whether the remote
calls raise (the raise oracles do not change the pass at all, mirroring
the `try`/`except` bodies of `remove_file_from_vector_store` and
`remove_file_from_openai`), and no stale identifier aborts the loop: every
stale identifier is removed. -/
theorem c4_deletion_pass (env : Env) (v b : String) (observed : List String)
    (st : StateJson) (i : String) (e : ArticleEntry)
    (hnd : (st.articles.map Prod.fst).Nodup)
    (hobs : observed.contains i = false)
    (he : lookupKey st.articles i = some e)
    (hb : e.openai_file_id = some b) (hbne : b ≠ "")
    (hvne : v ≠ "") (hcl : env.client = true)
    (huniq : ∀ j e2, lookupKey st.articles j = some e2 → j ≠ i
      → observed.contains j = false → e2.openai_file_id ≠ some b) :
    ((deletion_pass env (some v) observed st).events.count (.unlink v b) = 1)
    ∧ ((deletion_pass env (some v) observed st).events.count (.deleteBlob b) = 1)
    ∧ lookupKey (deletion_pass env (some v) observed st).st.articles i = none
    ∧ (∀ j, observed.contains j = false
        → lookupKey (deletion_pass env (some v) observed st).st.articles j = none)
    ∧ (deletion_pass env (some v) observed st).deleted
        = ((get_all_article_ids st).filter
            (fun j => observed.contains j = false)).length
    ∧ i ∈ (get_all_article_ids st).filter
        (fun j => observed.contains j = false)
    ∧ (∀ f g, deletion_pass { env with unlinkRaises := f, deleteRaises := g }
        (some v) observed st = deletion_pass env (some v) observed st) := by
  have hstalend : ((get_all_article_ids st).filter
      (fun j => observed.contains j = false)).Nodup := by
    exact List.Nodup.filter _ hnd
  have hobs2 : ¬(i ∈ observed) := by simpa using hobs
  have himem : i ∈ (get_all_article_ids st).filter
      (fun j => observed.contains j = false) := by
    rw [List.mem_filter]
    constructor
    · rw [get_all_article_ids, mem_keys_iff_lookup, he]
      exact fun hx => by cases hx
    · simp [hobs2]
  have hvt : truthyO (some v) = true := by
    rw [truthyO, truthyS]
    simpa using hvne
  have hev : (deletion_pass env (some v) observed st).events
      = (((get_all_article_ids st).filter
          (fun j => observed.contains j = false)).map
            (del_events env (some v) st)).flatten := by
    rw [deletion_pass]
    rw [del_fold_events env (some v) _ _ hstalend]
    simp
  have hga_i : get_article_state st (.strId i) = some e := he
  have hev_i : del_events env (some v) st i
      = [.unlink v b, .deleteBlob b] := by
    rw [del_events_eq, hga_i, Option.some_bind, hb]
    have hbt : truthyO (some b) = true := by
      rw [truthyO, truthyS]
      simpa using hbne
    rw [hbt, hvt]
    simp only [Bool.and_self, if_true]
    cases env.unlinkRaises ((some b).getD "") <;>
      cases env.deleteRaises ((some b).getD "") <;>
        simp [remove_file_from_vector_store, remove_file_from_openai,
          hcl, hbt, hvt]
  have hev_j : ∀ j, j ∈ (get_all_article_ids st).filter
        (fun j2 => observed.contains j2 = false) → j ≠ i
      → ((del_events env (some v) st j).count (.unlink v b) = 0
        ∧ (del_events env (some v) st j).count (.deleteBlob b) = 0) := by
    intro j hj hne
    rw [List.mem_filter] at hj
    have hjobs : observed.contains j = false := by simpa using hj.2
    have hga_j : get_article_state st (.strId j) = lookupKey st.articles j := rfl
    rw [del_events_eq, hga_j]
    rcases hl : lookupKey st.articles j with _ | e2
    · simp [truthyO]
    · have hblob := huniq j e2 hl hne hjobs
      rw [Option.some_bind]
      rcases hl2 : e2.openai_file_id with _ | b2
      · simp [truthyO]
      · have hb2ne : b2 ≠ b := by
          intro hcontra
          exact hblob (by rw [hl2, hcontra])
        by_cases hb2t : truthyO (some b2) = true
        · rw [hb2t, hvt]
          simp only [Bool.and_self, if_true]
          cases env.unlinkRaises ((some b2).getD "") <;>
            cases env.deleteRaises ((some b2).getD "") <;>
            simp [remove_file_from_vector_store, remove_file_from_openai,
              hcl, hb2t, hvt, List.count_cons, hb2ne]
        · simp only [Bool.not_eq_true] at hb2t
          rw [hb2t]
          simp
  refine ⟨?_, ?_, ?_, ?_, ?_, himem, ?_⟩
  · rw [hev, count_flatten_map]
    apply sum_eq_one_of_single _ _ i hstalend himem
    · rw [hev_i]
      simp [List.count_cons]
    · intro j hj hne
      exact (hev_j j hj hne).1
  · rw [hev, count_flatten_map]
    apply sum_eq_one_of_single _ _ i hstalend himem
    · rw [hev_i]
      simp [List.count_cons]
    · intro j hj hne
      exact (hev_j j hj hne).2
  · rw [deletion_pass_articles]
    exact lookupKey_filter_out _ _ _ hobs
  · intro j hj
    rw [deletion_pass_articles]
    exact lookupKey_filter_out _ _ _ hj
  · exact deletion_pass_deleted env (some v) observed st
  · intro f g
    exact deletion_pass_raises_irrel env f g (some v) observed st

/-- A concrete environment whose remote unlink call raises. -/
def c4Env : Env :=
  { client := true, md := fun s => s, outputDir := "data/articles"
    retrieveOk := fun _ => true, createResult := none
    uploadResult := fun _ => some "f", linkOk := fun _ _ => true
    writeOk := fun _ => true, unlinkRaises := fun _ => true
    deleteRaises := fun _ => false, saveOk := true, now := "t" }

/-- A concrete ledger tracking `A` and `B`, with blob ids recorded. -/
def c4St : StateJson :=
  ⟨[("A", ⟨"h1", some "f1", none, "t"⟩), ("B", ⟨"h2", some "f2", none, "t"⟩)],
   some "vs"⟩

/-- C4, witness: with only `A` observed, the pass unlinks and deletes
`B`'s blob exactly once (even though the unlink oracle raises), removes
`B` from the ledger and counts one deletion. -/
theorem c4_deletion_pass_witness :
    ((deletion_pass c4Env (some "vs") ["A"] c4St).events.count
        (.unlink "vs" "f2") = 1)
    ∧ ((deletion_pass c4Env (some "vs") ["A"] c4St).events.count
        (.deleteBlob "f2") = 1)
    ∧ lookupKey (deletion_pass c4Env (some "vs") ["A"] c4St).st.articles "B"
        = none
    ∧ (deletion_pass c4Env (some "vs") ["A"] c4St).deleted = 1 := by
  have h := c4_deletion_pass c4Env "vs" "f2" ["A"] c4St "B"
    ⟨"h2", some "f2", none, "t"⟩
    (by decide) (by decide) (by decide) (by decide) (by decide) (by decide)
    rfl
    (by
      intro j e2 hl hne hobs
      have hj : j ∈ c4St.articles.map Prod.fst :=
        (mem_keys_iff_lookup c4St.articles j).mpr
          (by rw [hl]; exact fun c => by cases c)
      simp [c4St] at hj
      rcases hj with rfl | rfl
      · exact absurd hobs (by decide)
      · exact absurd rfl hne)
  exact ⟨h.1, h.2.1, h.2.2.1, by rw [h.2.2.2.2.1]; decide⟩

/-! ## C7: normalisation -/

/-- C7: for an article carrying an identifier, an empty or absent body
yields the all-`None` result (and `process_article` is a pure function,
so no state is touched); otherwise the rendered content is exactly the
title heading, the URL line and the converted body joined by blank lines,
the target path is the output directory joined with the identifier,
a dash, the sanitised title and the `.md` suffix — where the sanitised
title replaces every non-alphanumeric character by `'-'` (so it consists
of alphanumerics and dashes only) and strips leading and trailing
dashes (src/scraper.py lines 86-122). -/
theorem c7_process_article (md : String → String) (dir : String)
    (a : Article) (n : Int) (hid : a.id = some n) :
    ((a.body = none ∨ a.body = some "") → process_article md dir a = none)
    ∧ (∀ s, a.body = some s → s ≠ "" →
        process_article md dir a = some
          { filepath := osJoin dir
              (toString n ++ "-" ++ sanitizeTitle (a.title.getD "Untitled") ++ ".md")
            file_content := "# " ++ a.title.getD "Untitled" ++ "\n\nArticle URL: "
              ++ a.html_url.getD "None" ++ "\n\n" ++ md s
            content_hash := md5hex ("# " ++ a.title.getD "Untitled"
              ++ "\n\nArticle URL: " ++ a.html_url.getD "None" ++ "\n\n" ++ md s)
            last_modified := pyOr a.api_last_modified a.updated_at })
    ∧ (∀ c ∈ (sanitizeTitle (a.title.getD "Untitled")).data,
        c.isAlphanum = true ∨ c = '-')
    ∧ (∀ c, (sanitizeTitle (a.title.getD "Untitled")).data.head? = some c
        → c ≠ '-')
    ∧ (∀ c, (sanitizeTitle (a.title.getD "Untitled")).data.getLast? = some c
        → c ≠ '-') := by
  refine ⟨?_, ?_, ?_, ?_, ?_⟩
  · rintro (h | h) <;> simp [process_article, h]
  · intro s hs hne
    rw [process_article]
    rw [hs]
    simp only [Option.getD_some]
    rw [if_neg hne]
    rw [show articleKey a = toString n from by rw [articleKey, hid]]
  · exact fun c hc => sanitizeTitle_chars _ c hc
  · exact fun c hc => sanitizeTitle_head _ c hc
  · exact fun c hc => sanitizeTitle_last _ c hc

/-- C7, witness: a concrete article with an empty body yields the absent
result, and one with a body renders to the expected document and path. -/
theorem c7_process_article_witness :
    process_article (fun s => s) "data/articles"
        ⟨some 5, some "A: b", some "", some "u", none, none⟩ = none
    ∧ process_article (fun s => s) "data/articles"
        ⟨some 5, some "A: b", some "x", some "u", none, none⟩ = some
        { filepath := osJoin "data/articles"
            (toString (5 : Int) ++ "-" ++ sanitizeTitle "A: b" ++ ".md")
          file_content := "# " ++ "A: b" ++ "\n\nArticle URL: " ++ "u"
            ++ "\n\n" ++ "x"
          content_hash := md5hex ("# " ++ "A: b" ++ "\n\nArticle URL: " ++ "u"
            ++ "\n\n" ++ "x")
          last_modified := pyOr none none } :=
  ⟨(c7_process_article (fun s => s) "data/articles"
      ⟨some 5, some "A: b", some "", some "u", none, none⟩ 5 rfl).1
      (Or.inr rfl),
   (c7_process_article (fun s => s) "data/articles"
      ⟨some 5, some "A: b", some "x", some "u", none, none⟩ 5 rfl).2.1
      "x" rfl (by decide)⟩

/-! ## C8: the fingerprint -/

theorem process_article_hash (md : String → String) (dir : String)
    (a : Article) (d : ProcessedDoc)
    (h : process_article md dir a = some d) :
    d.content_hash = md5hex d.file_content := by
  rw [process_article] at h
  by_cases hb : a.body.getD "" = ""
  · rw [if_pos hb] at h
    cases h
  · rw [if_neg hb] at h
    simp only [Option.some.injEq] at h
    rw [← h]

/-- C8, counterexample: the fingerprint is a 128-bit MD5 digest, so the
map from rendered text to fingerprint cannot be injective — by the
pigeonhole principle there are two articles whose `process_article`
outputs have different rendered text (titles of different lengths) but
the same fingerprint.  This refutes the claim that any two normalized
documents with differing rendered text have differing fingerprints. -/
theorem c8_counterexample :
    ∃ a1 a2 : Article, ∃ d1 d2 : ProcessedDoc,
      process_article (fun s => s) "data/articles" a1 = some d1
      ∧ process_article (fun s => s) "data/articles" a2 = some d2
      ∧ d1.file_content ≠ d2.file_content
      ∧ d1.content_hash = d2.content_hash := by
  obtain ⟨n, m, hnm, heq⟩ := Finite.exists_ne_map_eq_of_infinite
    (fun k : ℕ => (⟨md5Nat (contentN k), md5Nat_lt (contentN k)⟩
      : Fin 340282366920938463463374607431768211456))
  refine ⟨articleN n, articleN m, _, _, process_articleN n, process_articleN m,
    ?_, ?_⟩
  · intro h
    exact hnm (contentN_inj n m h)
  · have hn : md5Nat (contentN n) = md5Nat (contentN m) := by
      have := congrArg Fin.val heq
      simpa using this
    exact md5hex_eq_of_md5Nat_eq _ _ hn

/-- C8, amended: the fingerprint is a deterministic function of the
rendered text — two normalized documents with equal rendered text have
equal fingerprints, however they were produced; but as the fingerprint is
a fixed-width 128-bit digest, differing rendered texts do not always
yield differing fingerprints (see the counterexample). -/
theorem c8_fingerprint_deterministic (md : String → String) (dir : String)
    (a b : Article) (da db : ProcessedDoc)
    (ha : process_article md dir a = some da)
    (hb : process_article md dir b = some db)
    (h : da.file_content = db.file_content) :
    da.content_hash = db.content_hash := by
  rw [process_article_hash md dir a da ha, process_article_hash md dir b db hb,
    h]

set_option maxRecDepth 1000000 in
/-- C8, witness for the amended theorem: two articles with different
identifiers but identical title, URL and body render to the same text and
receive the same fingerprint. -/
theorem c8_fingerprint_deterministic_witness :
    (ProcessedDoc.mk "data/articles/1-T.md" "# T\n\nArticle URL: u\n\nx"
        (md5hex "# T\n\nArticle URL: u\n\nx") none).content_hash
      = (ProcessedDoc.mk "data/articles/2-T.md" "# T\n\nArticle URL: u\n\nx"
        (md5hex "# T\n\nArticle URL: u\n\nx") none).content_hash :=
  c8_fingerprint_deterministic (fun s => s) "data/articles"
    ⟨some 1, some "T", some "x", some "u", none, none⟩
    ⟨some 2, some "T", some "x", some "u", none, none⟩
    (ProcessedDoc.mk "data/articles/1-T.md" "# T\n\nArticle URL: u\n\nx"
      (md5hex "# T\n\nArticle URL: u\n\nx") none)
    (ProcessedDoc.mk "data/articles/2-T.md" "# T\n\nArticle URL: u\n\nx"
      (md5hex "# T\n\nArticle URL: u\n\nx") none)
    (by decide) (by decide) rfl

/-! ## C3: upload failure isolation -/

/-- C3: when a store is available, an article whose upload returns no
identifier marks the run failed and leaves its own ledger entry exactly as
it was before the run, while another article of the same run (with a
changed fingerprint, a successful write and a successful upload) still
gets its ledger entry written with the new fingerprint, blob id and
marker.  The identifier-distinctness hypothesis reflects that source
listings key articles by unique ids. -/
theorem c3_upload_failure_isolated (env : Env) (st0 : StateJson)
    (fs0 : List String) (l : List Article) (a b : Article)
    (da db : ProcessedDoc) (fidb : String) (v : String)
    (hnd : (l.map articleKey).Nodup)
    (hvs : (get_or_create_vector_store env.client env.retrieveOk
      env.createResult st0).1 = some v)
    (hvt : v ≠ "")
    (hcl : env.client = true)
    (ha : a ∈ l)
    (hpa : process_article env.md env.outputDir a = some da)
    (hmisa : ∀ e, lookupKey st0.articles (articleKey a) = some e
      → e.hash ≠ da.content_hash)
    (hwa : env.writeOk da.filepath = true)
    (hua : env.uploadResult da.filepath = none)
    (hb : b ∈ l)
    (hpb : process_article env.md env.outputDir b = some db)
    (hmisb : ∀ e, lookupKey st0.articles (articleKey b) = some e
      → e.hash ≠ db.content_hash)
    (hwb : env.writeOk db.filepath = true)
    (hub : env.uploadResult db.filepath = some fidb) :
    (run_main env st0 fs0 l).stats.failed = true
    ∧ lookupKey (run_main env st0 fs0 l).state.articles (articleKey a)
        = lookupKey st0.articles (articleKey a)
    ∧ lookupKey (run_main env st0 fs0 l).state.articles (articleKey b)
        = some ⟨db.content_hash, some fidb, db.last_modified, env.now⟩ := by
  have hvtr : truthyO (some v) = true := by
    rw [truthyO, truthyS]
    simpa using hvt
  -- the ledger the upsert pass starts from agrees with `st0` on every
  -- observed key: the bootstrap does not touch entries, and the deletion
  -- pass keeps every observed key
  have hpre : ∀ c : Article, c ∈ l →
      lookupKey (deletion_pass env
        (get_or_create_vector_store env.client env.retrieveOk env.createResult st0).1
        (l.map articleKey)
        (get_or_create_vector_store env.client env.retrieveOk env.createResult st0).2.1).st.articles
        (articleKey c)
      = lookupKey st0.articles (articleKey c) := by
    intro c hc
    rw [deletion_pass_articles]
    rw [lookupKey_filter_key _ _ _ (by
      simpa using List.mem_map_of_mem articleKey hc)]
    rw [boot_articles]
  rw [run_main_state, run_main_stats, hvs]
  rw [hvs] at hpre
  have hfail := upsert_pass_upload_failed env (some v)
    ⟨(deletion_pass env (some v) (l.map articleKey)
        (get_or_create_vector_store env.client env.retrieveOk env.createResult st0).2.1).st,
      fs0, initStats, []⟩ l a da hnd ha hpa
    (by
      intro e he
      apply hmisa
      rw [← hpre a ha]
      exact he)
    hwa hvtr hcl hua
  have hok := upsert_pass_upload_ok env (some v)
    ⟨(deletion_pass env (some v) (l.map articleKey)
        (get_or_create_vector_store env.client env.retrieveOk env.createResult st0).2.1).st,
      fs0, initStats, []⟩ l b db fidb hnd hb hpb
    (by
      intro e he
      apply hmisb
      rw [← hpre b hb]
      exact he)
    hwb hvtr hcl hub
  refine ⟨?_, ?_, ?_⟩
  · simp [hfail.2]
  · rw [hfail.1]
    exact hpre a ha
  · exact hok

/-- A concrete environment in which uploading the first article's file
fails but the second one succeeds. -/
def c3Env : Env :=
  { client := true, md := fun s => s, outputDir := "d"
    retrieveOk := fun _ => true, createResult := none
    uploadResult := fun p => if p = "d/1-A.md" then none else some "fb"
    linkOk := fun _ _ => true, writeOk := fun _ => true
    unlinkRaises := fun _ => false, deleteRaises := fun _ => false
    saveOk := true, now := "t" }

/-- The article whose upload fails. -/
def c3A : Article := ⟨some 1, some "A", some "x", some "u", none, none⟩

/-- The article whose upload succeeds. -/
def c3B : Article := ⟨some 2, some "B", some "y", some "u", none, none⟩

set_option maxRecDepth 1000000 in
/-- C3, witness: in a concrete two-article run over a fresh ledger, the
failing article leaves no ledger entry, the other article's entry is
written, and the run is marked failed. -/
theorem c3_upload_failure_isolated_witness :
    (run_main c3Env ⟨[], some "vs"⟩ [] [c3A, c3B]).stats.failed = true
    ∧ lookupKey (run_main c3Env ⟨[], some "vs"⟩ [] [c3A, c3B]).state.articles
        "1" = none
    ∧ lookupKey (run_main c3Env ⟨[], some "vs"⟩ [] [c3A, c3B]).state.articles
        "2" = some ⟨md5hex "# B\n\nArticle URL: u\n\ny", some "fb", none, "t"⟩ := by
  have h := c3_upload_failure_isolated c3Env ⟨[], some "vs"⟩ [] [c3A, c3B]
    c3A c3B
    ⟨"d/1-A.md", "# A\n\nArticle URL: u\n\nx",
      md5hex "# A\n\nArticle URL: u\n\nx", none⟩
    ⟨"d/2-B.md", "# B\n\nArticle URL: u\n\ny",
      md5hex "# B\n\nArticle URL: u\n\ny", none⟩
    "fb" "vs"
    (by decide) (by decide) (by decide) rfl
    (List.mem_cons_self _ _) (by decide)
    (fun e he => by simp [lookupKey] at he) rfl rfl
    (List.mem_cons_of_mem _ (List.mem_cons_self _ _)) (by decide)
    (fun e he => by simp [lookupKey] at he) rfl rfl
  exact ⟨h.1, by rw [show articleKey c3A = "1" from rfl] at h; rw [h.2.1]; rfl,
    by rw [show articleKey c3B = "2" from rfl] at h; exact h.2.2⟩

/-! ## C2: idempotence of a second run -/

/-- An environment with every collaborator succeeding (no OpenAI client,
so uploads return the mock id). -/
def c2Env : Env :=
  { client := false, md := fun s => s, outputDir := "d"
    retrieveOk := fun _ => true, createResult := none
    uploadResult := fun _ => some "f", linkOk := fun _ _ => true
    writeOk := fun _ => true, unlinkRaises := fun _ => false
    deleteRaises := fun _ => false, saveOk := true, now := "t" }

/-- First article of the duplicated pair (id 1, body `x`). -/
def c2A1 : Article := ⟨some 1, some "T", some "x", some "u", none, none⟩

/-- Second article with the same id 1 but a different body `y`. -/
def c2A2 : Article := ⟨some 1, some "T", some "y", some "u", none, none⟩

set_option maxRecDepth 1000000 in
/-- C2, counterexample: the claim quantifies over *every* source list,
but a list that carries the same identifier twice with different bodies
is never at rest.  Both articles map to ledger key `"1"`, so each run the
first article finds the second's fingerprint stored, rewrites it, and the
second then finds the first's.  On the second run the reconciler performs
two updates and skips nothing, refuting "zero adds/updates/deletes on the
second run (all skipped)". -/
theorem c2_counterexample :
    (run_main c2Env (run_main c2Env ⟨[], some "vs"⟩ [] [c2A1, c2A2]).state
      (run_main c2Env ⟨[], some "vs"⟩ [] [c2A1, c2A2]).fs
      [c2A1, c2A2]).stats.updated = 2
    ∧ (run_main c2Env (run_main c2Env ⟨[], some "vs"⟩ [] [c2A1, c2A2]).state
        (run_main c2Env ⟨[], some "vs"⟩ [] [c2A1, c2A2]).fs
        [c2A1, c2A2]).stats.skipped = 0 :=
  ⟨by decide, by decide⟩

/-- C2, amended: over a source list with pairwise distinct identifiers,
and with writes and uploads succeeding, a second run immediately after a
first run over the same list performs zero adds, zero updates and zero
deletes, skips every body-bearing article, and leaves the ledger equal to
the first run's — hence any serialisation of it (in particular the
persisted JSON bytes) is identical. -/
theorem c2_idempotent (env : Env) (st0 : StateJson) (fs0 : List String)
    (l : List Article)
    (hnd : (l.map articleKey).Nodup)
    (hw : ∀ p, env.writeOk p = true)
    (hu : ∀ p, (env.uploadResult p).isSome = true) :
    (run_main env (run_main env st0 fs0 l).state
      (run_main env st0 fs0 l).fs l).stats.added = 0
    ∧ (run_main env (run_main env st0 fs0 l).state
        (run_main env st0 fs0 l).fs l).stats.updated = 0
    ∧ (run_main env (run_main env st0 fs0 l).state
        (run_main env st0 fs0 l).fs l).stats.deleted = 0
    ∧ (run_main env (run_main env st0 fs0 l).state
        (run_main env st0 fs0 l).fs l).stats.skipped
      = (l.filter
          (fun a => (process_article env.md env.outputDir a).isSome)).length
    ∧ (run_main env (run_main env st0 fs0 l).state
        (run_main env st0 fs0 l).fs l).state = (run_main env st0 fs0 l).state
    ∧ ∀ ser : StateJson → String,
        ser (run_main env (run_main env st0 fs0 l).state
          (run_main env st0 fs0 l).fs l).state
          = ser (run_main env st0 fs0 l).state := by
  -- facts about the first run
  have hvsid1 : (run_main env st0 fs0 l).state.vector_store_id
      = (get_or_create_vector_store env.client env.retrieveOk
          env.createResult st0).2.1.vector_store_id := by
    rw [run_main_state, upsert_pass_vsid]
    exact deletion_pass_vsid _ _ _ _
  have hkeys : ∀ j, j ∈ (run_main env st0 fs0 l).state.articles.map Prod.fst
      → j ∈ l.map articleKey := by
    intro j hj
    rw [run_main_state] at hj
    rcases upsert_pass_keys _ _ _ _ _ hj with h2 | h2
    · rw [show (⟨(deletion_pass env
          (get_or_create_vector_store env.client env.retrieveOk env.createResult st0).1
          (l.map articleKey)
          (get_or_create_vector_store env.client env.retrieveOk env.createResult st0).2.1).st,
          fs0, initStats, []⟩ : UpsertAcc).st
        = (deletion_pass env
          (get_or_create_vector_store env.client env.retrieveOk env.createResult st0).1
          (l.map articleKey)
          (get_or_create_vector_store env.client env.retrieveOk env.createResult st0).2.1).st
        from rfl] at h2
      rw [deletion_pass_articles] at h2
      exact filter_keys_mem _ _ _ h2
    · exact h2
  have hready : ∀ a ∈ l,
      Ready env (run_main env st0 fs0 l).state (run_main env st0 fs0 l).fs a := by
    rw [run_main_state, run_main_fs]
    exact upsert_ready env _ _ l hnd hw hu
  -- the second bootstrap leaves the first run's ledger untouched
  have hboot2 : (get_or_create_vector_store env.client env.retrieveOk
      env.createResult (run_main env st0 fs0 l).state).2.1
      = (run_main env st0 fs0 l).state :=
    boot_after_run _ _ _ st0 _ hvsid1
  -- the second deletion pass is a no-op
  have hdel2 : ∀ vs, deletion_pass env vs (l.map articleKey)
      (run_main env st0 fs0 l).state
      = ⟨(run_main env st0 fs0 l).state, 0, []⟩ := by
    intro vs
    apply deletion_pass_noop
    intro j hj
    have := hkeys j (by simpa [get_all_article_ids] using hj)
    simpa using this
  -- the second upsert pass only skips
  have hup2 : ∀ vs, upsert_pass env vs
      ⟨(run_main env st0 fs0 l).state, (run_main env st0 fs0 l).fs,
        initStats, []⟩ l
      = { st := (run_main env st0 fs0 l).state
          fs := (run_main env st0 fs0 l).fs
          stats := { initStats with skipped := initStats.skipped
            + (l.filter
                (fun a => (process_article env.md env.outputDir a).isSome)).length }
          events := [] } := by
    intro vs
    exact upsert_all_skip env vs _ l hready
  constructor
  · rw [run_main_stats, hboot2, hdel2, hup2]
    rfl
  constructor
  · rw [run_main_stats, hboot2, hdel2, hup2]
    rfl
  constructor
  · rw [run_main_stats, hboot2, hdel2]
  constructor
  · rw [run_main_stats, hboot2, hdel2, hup2]
    simp [initStats]
  have hstate : (run_main env (run_main env st0 fs0 l).state
      (run_main env st0 fs0 l).fs l).state = (run_main env st0 fs0 l).state := by
    rw [run_main_state, hboot2, hdel2, hup2]
  exact ⟨hstate, fun ser => congrArg ser hstate⟩

/-- An article with an identifier distinct from `c2A1`'s. -/
def c2B : Article := ⟨some 2, some "U", some "y", some "u", none, none⟩

set_option maxRecDepth 1000000 in
/-- C2, witness: a concrete two-article list with distinct ids, run twice
from a fresh ledger under all-succeeding collaborators; the second run
adds, updates and deletes nothing, skips both articles and preserves the
ledger. -/
theorem c2_idempotent_witness :
    ([c2A1, c2B].map articleKey).Nodup
    ∧ (∀ p, c2Env.writeOk p = true)
    ∧ (∀ p, (c2Env.uploadResult p).isSome = true)
    ∧ (run_main c2Env (run_main c2Env ⟨[], some "vs"⟩ [] [c2A1, c2B]).state
        (run_main c2Env ⟨[], some "vs"⟩ [] [c2A1, c2B]).fs
        [c2A1, c2B]).stats.added = 0
    ∧ (run_main c2Env (run_main c2Env ⟨[], some "vs"⟩ [] [c2A1, c2B]).state
        (run_main c2Env ⟨[], some "vs"⟩ [] [c2A1, c2B]).fs
        [c2A1, c2B]).stats.updated = 0
    ∧ (run_main c2Env (run_main c2Env ⟨[], some "vs"⟩ [] [c2A1, c2B]).state
        (run_main c2Env ⟨[], some "vs"⟩ [] [c2A1, c2B]).fs
        [c2A1, c2B]).stats.skipped = 2
    ∧ (run_main c2Env (run_main c2Env ⟨[], some "vs"⟩ [] [c2A1, c2B]).state
        (run_main c2Env ⟨[], some "vs"⟩ [] [c2A1, c2B]).fs
        [c2A1, c2B]).state = (run_main c2Env ⟨[], some "vs"⟩ [] [c2A1, c2B]).state := by
  have h := c2_idempotent c2Env ⟨[], some "vs"⟩ [] [c2A1, c2B]
    (by decide) (fun p => rfl) (fun p => rfl)
  refine ⟨by decide, fun p => rfl, fun p => rfl, h.1, h.2.1, ?_, h.2.2.2.2.1⟩
  rw [h.2.2.2.1]
  decide

end ChatbotClone
